import Mathlib

/-!
The streaming loader `Parse` and the file dispatch of `main` of FIASParse.

A shallow embedding of `src/main.go`.  The XML decoder, the `strconv` conversions and the
relational store are libraries outside the repository; they appear here as small explicit models
(a token list, decimal parsing, a map from table names to row lists) so that `Parse` is a total,
computable function of its inputs.
-/

namespace FIASParse

/-! ## Record types -/

/-- The Go types of the fields of the record structs: `string`, `int` and `byte`. -/
inductive Kind where
  | string
  | int
  | byte
  deriving DecidableEq, Repr

/-- A Go value of one of the three field types. -/
inductive Value where
  | string (s : String)
  | int (i : Int)
  | byte (b : Nat)
  deriving DecidableEq, Repr

/-- The zero value of a Go type. -/
def Kind.zero : Kind → Value
  | .string => .string ""
  | .int => .int 0
  | .byte => .byte 0

/-- One struct field: its Go name, the attribute name of its `xml` tag, and its type. -/
structure Field where
  name : String
  attr : String
  kind : Kind
  deriving DecidableEq, Repr

/-- A Go struct type: its name and its fields in declaration order. -/
structure RecordType where
  name : String
  fields : List Field
  deriving DecidableEq, Repr

/-- A struct value as `reflect` sees it: every field together with its current value. -/
abbrev Struct := List (Field × Value)

/-- Go `new(T)`: every field holds the zero value of its type. -/
def new (T : RecordType) : Struct :=
  T.fields.map fun f => (f, f.kind.zero)

/-- Go struct `ActualStatus` (fields in declaration order, with the attribute name of each tag). -/
def ActualStatus : RecordType :=
  ⟨"ActualStatus", [
    ⟨"ACTSTATID", "ACTSTATID", .int⟩,
    ⟨"NAME", "NAME", .string⟩]⟩

/-- Go struct `Object` (fields in declaration order, with the attribute name of each tag). -/
def Object : RecordType :=
  ⟨"Object", [
    ⟨"AOGUID", "AOGUID", .string⟩,
    ⟨"FORMALNAME", "FORMALNAME", .string⟩,
    ⟨"REGIONCODE", "REGIONCODE", .string⟩,
    ⟨"AUTOCODE", "AUTOCODE", .string⟩,
    ⟨"AREACODE", "AREACODE", .string⟩,
    ⟨"CITYCODE", "CITYCODE", .string⟩,
    ⟨"CTARCODE", "CTARCODE", .string⟩,
    ⟨"PLACECODE", "PLACECODE", .string⟩,
    ⟨"STREETCODE", "STREETCODE", .string⟩,
    ⟨"EXTRCODE", "EXTRCODE", .string⟩,
    ⟨"SEXTCODE", "SEXTCODE", .string⟩,
    ⟨"OFFNAME", "OFFNAME", .string⟩,
    ⟨"POSTALCODE", "POSTALCODE", .string⟩,
    ⟨"IFNSFL", "IFNSFL", .string⟩,
    ⟨"TERRIFNSFL", "TERRIFNSFL", .string⟩,
    ⟨"IFNSUL", "IFNSUL", .string⟩,
    ⟨"TERRIFNSUL", "TERRIFNSUL", .string⟩,
    ⟨"OKATO", "OKATO", .string⟩,
    ⟨"OKTMO", "OKTMO", .string⟩,
    ⟨"UPDATEDATE", "UPDATEDATE", .string⟩,
    ⟨"SHORTNAME", "SHORTNAME", .string⟩,
    ⟨"AOLEVEL", "AOLEVEL", .int⟩,
    ⟨"PARENTGUID", "PARENTGUID", .string⟩,
    ⟨"AOID", "AOID", .string⟩,
    ⟨"PREVID", "PREVID", .string⟩,
    ⟨"NEXTID", "NEXTID", .string⟩,
    ⟨"CODE", "CODE", .string⟩,
    ⟨"PLAINCODE", "PLAINCODE", .string⟩,
    ⟨"ACTSTATUS", "ACTSTATUS", .int⟩,
    ⟨"CENTSTATUS", "CENTSTATUS", .int⟩,
    ⟨"OPERSTATUS", "OPERSTATUS", .int⟩,
    ⟨"CURRSTATUS", "CURRSTATUS", .int⟩,
    ⟨"STARTDATE", "STARTDATE", .string⟩,
    ⟨"ENDDATE", "ENDDATE", .string⟩,
    ⟨"NORMDOC", "NORMDOC", .string⟩,
    ⟨"LIVESTATUS", "LIVESTATUS", .byte⟩,
    ⟨"CADNUM", "CADNUM", .string⟩,
    ⟨"DIVTYPE", "DIVTYPE", .int⟩]⟩

/-- Go struct `CenterStatus` (fields in declaration order, with the attribute name of each tag). -/
def CenterStatus : RecordType :=
  ⟨"CenterStatus", [
    ⟨"CENTERSTID", "CENTERSTID", .int⟩,
    ⟨"NAME", "NAME", .string⟩]⟩

/-- Go struct `CurrentStatus` (fields in declaration order, with the attribute name of each tag). -/
def CurrentStatus : RecordType :=
  ⟨"CurrentStatus", [
    ⟨"CURENTSTID", "CURENTSTID", .int⟩,
    ⟨"NAME", "NAME", .string⟩]⟩

/-- Go struct `EstateStatus` (fields in declaration order, with the attribute name of each tag). -/
def EstateStatus : RecordType :=
  ⟨"EstateStatus", [
    ⟨"ESTSTATID", "ESTSTATID", .int⟩,
    ⟨"NAME", "NAME", .string⟩,
    ⟨"SHORTNAME", "SHORTNAME", .string⟩]⟩

/-- Go struct `House` (fields in declaration order, with the attribute name of each tag). -/
def House : RecordType :=
  ⟨"House", [
    ⟨"PostalCode", "POSTALCODE", .string⟩,
    ⟨"RegionCode", "REGIONCODE", .string⟩,
    ⟨"IFNSFL", "IFNSFL", .string⟩,
    ⟨"TerrIFNSFL", "TERRIFNSFL", .string⟩,
    ⟨"IFNSUL", "IFNSUL", .string⟩,
    ⟨"TerrIFNSUL", "TERRIFNSUL", .string⟩,
    ⟨"OKATO", "OKATO", .string⟩,
    ⟨"OKTMO", "OKTMO", .string⟩,
    ⟨"UPDATEDATE", "UPDATEDATE", .string⟩,
    ⟨"HouseNum", "HOUSENUM", .string⟩,
    ⟨"ESTStatus", "ESTSTATUS", .int⟩,
    ⟨"BuildNum", "BUILDNUM", .string⟩,
    ⟨"StrucNum", "STRUCNUM", .string⟩,
    ⟨"STRStatus", "STRSTATUS", .int⟩,
    ⟨"HouseID", "HOUSEID", .string⟩,
    ⟨"HouseGUID", "HOUSEGUID", .string⟩,
    ⟨"AOGUID", "AOGUID", .string⟩,
    ⟨"STARTDATE", "STARTDATE", .string⟩,
    ⟨"ENDDATE", "ENDDATE", .string⟩,
    ⟨"StatStatus", "STATSTATUS", .int⟩,
    ⟨"NormDoc", "NORMDOC", .string⟩,
    ⟨"Counter", "COUNTER", .int⟩,
    ⟨"CadNum", "CADNUM", .string⟩,
    ⟨"DviType", "DVITYPE", .int⟩]⟩

/-- Go struct `HouseInterval` (fields in declaration order, with the attribute name of each tag). -/
def HouseInterval : RecordType :=
  ⟨"HouseInterval", [
    ⟨"POSTALCODE", "POSTALCODE", .string⟩,
    ⟨"IFNSFL", "IFNSFL", .string⟩,
    ⟨"TERRIFNSFL", "TERRIFNSFL", .string⟩,
    ⟨"IFNSUL", "IFNSUL", .string⟩,
    ⟨"TERRIFNSUL", "TERRIFNSUL", .string⟩,
    ⟨"OKATO", "OKATO", .string⟩,
    ⟨"OKTMO", "OKTMO", .string⟩,
    ⟨"UPDATEDATE", "UPDATEDATE", .string⟩,
    ⟨"INTSTART", "INTSTART", .int⟩,
    ⟨"INTEND", "INTEND", .int⟩,
    ⟨"HOUSEINTID", "HOUSEINTID", .string⟩,
    ⟨"INTGUID", "INTGUID", .string⟩,
    ⟨"AOGUID", "AOGUID", .string⟩,
    ⟨"STARTDATE", "STARTDATE", .string⟩,
    ⟨"ENDDATE", "ENDDATE", .string⟩,
    ⟨"INTSTATUS", "INTSTATUS", .int⟩,
    ⟨"NORMDOC", "NORMDOC", .string⟩,
    ⟨"COUNTER", "COUNTER", .int⟩]⟩

/-- Go struct `HouseStateStatus` (fields in declaration order, with the attribute name of each tag). -/
def HouseStateStatus : RecordType :=
  ⟨"HouseStateStatus", [
    ⟨"HOUSESTID", "HOUSESTID", .int⟩,
    ⟨"NAME", "NAME", .string⟩]⟩

/-- Go struct `IntervalStatus` (fields in declaration order, with the attribute name of each tag). -/
def IntervalStatus : RecordType :=
  ⟨"IntervalStatus", [
    ⟨"INTVSTATID", "INTVSTATID", .int⟩,
    ⟨"NAME", "NAME", .string⟩]⟩

/-- Go struct `Landmark` (fields in declaration order, with the attribute name of each tag). -/
def Landmark : RecordType :=
  ⟨"Landmark", [
    ⟨"LOCATION", "LOCATION", .string⟩,
    ⟨"REGIONCODE", "REGIONCODE", .string⟩,
    ⟨"POSTALCODE", "POSTALCODE", .string⟩,
    ⟨"IFNSFL", "IFNSFL", .string⟩,
    ⟨"TERRIFNSFL", "TERRIFNSFL", .string⟩,
    ⟨"IFNSUL", "IFNSUL", .string⟩,
    ⟨"TERRIFNSUL", "TERRIFNSUL", .string⟩,
    ⟨"OKATO", "OKATO", .string⟩,
    ⟨"OKTMO", "OKTMO", .string⟩,
    ⟨"UPDATEDATE", "UPDATEDATE", .string⟩,
    ⟨"LANDID", "LANDID", .string⟩,
    ⟨"LANDGUID", "LANDGUID", .string⟩,
    ⟨"AOGUID", "AOGUID", .string⟩,
    ⟨"STARTDATE", "STARTDATE", .string⟩,
    ⟨"ENDDATE", "ENDDATE", .string⟩,
    ⟨"NORMDOC", "NORMDOC", .string⟩,
    ⟨"CADNUM", "CADNUM", .string⟩]⟩

/-- Go struct `NormativeDocumentType` (fields in declaration order, with the attribute name of each tag). -/
def NormativeDocumentType : RecordType :=
  ⟨"NormativeDocumentType", [
    ⟨"NDTYPEID", "NDTYPEID", .int⟩,
    ⟨"NAME", "NAME", .string⟩]⟩

/-- Go struct `NormativeDocument` (fields in declaration order, with the attribute name of each tag). -/
def NormativeDocument : RecordType :=
  ⟨"NormativeDocument", [
    ⟨"NORMDOCID", "NORMDOCID", .string⟩,
    ⟨"DOCNAME", "DOCNAME", .string⟩,
    ⟨"DOCDATE", "DOCDATE", .string⟩,
    ⟨"DOCNUM", "DOCNUM", .string⟩,
    ⟨"DOCTYPE", "DOCTYPE", .int⟩,
    ⟨"DOCIMGID", "DOCIMGID", .int⟩]⟩

/-- Go struct `OperationStatus` (fields in declaration order, with the attribute name of each tag). -/
def OperationStatus : RecordType :=
  ⟨"OperationStatus", [
    ⟨"OPERSTATID", "OPERSTATID", .int⟩,
    ⟨"NAME", "NAME", .string⟩]⟩

/-- Go struct `Room` (fields in declaration order, with the attribute name of each tag). -/
def Room : RecordType :=
  ⟨"Room", [
    ⟨"RoomGuid", "ROOMGUID", .string⟩,
    ⟨"FlatNumber", "FLATNUMBER", .string⟩,
    ⟨"FlatType", "FLATTYPE", .int⟩,
    ⟨"RoomNumber", "ROOMNUMBER", .string⟩,
    ⟨"RoomType", "ROOMTYPE", .int⟩,
    ⟨"RegionCode", "REGIONCODE", .string⟩,
    ⟨"PostalCode", "POSTALCODE", .string⟩,
    ⟨"UpdateDate", "UPDATEDATE", .string⟩,
    ⟨"HouseGuid", "HOUSEGUID", .string⟩,
    ⟨"RoomId", "ROOMID", .string⟩,
    ⟨"PrevId", "PREVID", .string⟩,
    ⟨"NextId", "NEXTID", .string⟩,
    ⟨"StartDate", "STARTDATE", .string⟩,
    ⟨"EndDate", "ENDDATE", .string⟩,
    ⟨"LiveStatus", "LIVESTATUS", .string⟩,
    ⟨"NormDoc", "NORMDOC", .string⟩,
    ⟨"OperStatus", "OPERSTATUS", .int⟩,
    ⟨"CadNum", "CADNUM", .string⟩,
    ⟨"RoomCadNum", "ROOMCADNUM", .string⟩]⟩

/-- Go struct `AddressObjectType` (fields in declaration order, with the attribute name of each tag). -/
def AddressObjectType : RecordType :=
  ⟨"AddressObjectType", [
    ⟨"LEVEL", "LEVEL", .int⟩,
    ⟨"SCNAME", "SCNAME", .string⟩,
    ⟨"SOCRNAME", "SOCRNAME", .string⟩,
    ⟨"KODTST", "KOD_T_ST", .string⟩]⟩

/-- Go struct `Stead` (fields in declaration order, with the attribute name of each tag). -/
def Stead : RecordType :=
  ⟨"Stead", [
    ⟨"STEADGUID", "STEADGUID", .string⟩,
    ⟨"NUMBER", "NUMBER", .string⟩,
    ⟨"REGIONCODE", "REGIONCODE", .string⟩,
    ⟨"POSTALCODE", "POSTALCODE", .string⟩,
    ⟨"IFNSFL", "IFNSFL", .string⟩,
    ⟨"TERRIFNSFL", "TERRIFNSFL", .string⟩,
    ⟨"IFNSUL", "IFNSUL", .string⟩,
    ⟨"TERRIFNSUL", "TERRIFNSUL", .string⟩,
    ⟨"OKATO", "OKATO", .string⟩,
    ⟨"OKTMO", "OKTMO", .string⟩,
    ⟨"UPDATEDATE", "UPDATEDATE", .string⟩,
    ⟨"PARENTGUID", "PARENTGUID", .string⟩,
    ⟨"STEADID", "STEADID", .string⟩,
    ⟨"PREVID", "PREVID", .string⟩,
    ⟨"NEXTID", "NEXTID", .string⟩,
    ⟨"OPERSTATUS", "OPERSTATUS", .int⟩,
    ⟨"STARTDATE", "STARTDATE", .string⟩,
    ⟨"ENDDATE", "ENDDATE", .string⟩,
    ⟨"NORMDOC", "NORMDOC", .string⟩,
    ⟨"LIVESTATUS", "LIVESTATUS", .byte⟩,
    ⟨"CADNUM", "CADNUM", .string⟩,
    ⟨"DIVTYPE", "DIVTYPE", .int⟩]⟩

/-- Go struct `StructureStatus` (fields in declaration order, with the attribute name of each tag). -/
def StructureStatus : RecordType :=
  ⟨"StructureStatus", [
    ⟨"STRSTATID", "STRSTATID", .int⟩,
    ⟨"NAME", "NAME", .string⟩,
    ⟨"SHORTNAME", "SHORTNAME", .string⟩]⟩
/-! ## Library models: strings, `strconv`, XML tokens -/

/-- Go `strings.ToLower` on the field names, which are ASCII identifiers. -/
def ToLower (s : String) : String :=
  String.mk (s.data.map Char.toLower)

/-- Go `unicode.IsSpace`. -/
def isSpace (c : Char) : Bool :=
  let n := c.toNat
  (9 ≤ n && n ≤ 13) || n == 0x20 || n == 0x85 || n == 0xA0 || n == 0x1680 ||
    (0x2000 ≤ n && n ≤ 0x200A) || n == 0x2028 || n == 0x2029 || n == 0x202F ||
    n == 0x205F || n == 0x3000

/-- Go `strings.TrimSpace`. -/
def TrimSpace (cs : List Char) : List Char :=
  ((cs.dropWhile isSpace).reverse.dropWhile isSpace).reverse

/-- The value of a decimal digit string; `none` when a character is not an ASCII digit. -/
def decimal (cs : List Char) : Option Nat :=
  cs.foldl (fun acc c =>
    match acc with
    | none => none
    | some n => if c.isDigit then some (n * 10 + (c.toNat - 48)) else none) (some 0)

/-- Go `strconv.ParseUint(s, 10, bitSize)`: a non-empty run of decimal digits below `2^bitSize`. -/
def ParseUint (cs : List Char) (bitSize : Nat) : Option Nat :=
  if cs.isEmpty then none
  else match decimal cs with
    | none => none
    | some n => if n < 2 ^ bitSize then some n else none

/-- Go `strconv.ParseInt(s, 10, bitSize)`: an optional sign, then decimal digits, within range. -/
def ParseInt (cs : List Char) (bitSize : Nat) : Option Int :=
  match cs with
  | '-' :: ds =>
    if ds.isEmpty then none
    else match decimal ds with
      | none => none
      | some n => if n ≤ 2 ^ (bitSize - 1) then some (-(n : Int)) else none
  | '+' :: ds =>
    if ds.isEmpty then none
    else match decimal ds with
      | none => none
      | some n => if n < 2 ^ (bitSize - 1) then some (n : Int) else none
  | ds =>
    if ds.isEmpty then none
    else match decimal ds with
      | none => none
      | some n => if n < 2 ^ (bitSize - 1) then some (n : Int) else none

/-- A token delivered by `xml.Decoder.Token`; `Misc` stands for comments, processing
instructions and directives. -/
inductive Token where
  | StartElement (name : String) (attr : List (String × String))
  | EndElement (name : String)
  | CharData (data : String)
  | Misc
  deriving DecidableEq, Repr

/-! ## The relational store -/

/-- A `goqu.Record`: column name to value. -/
abbrev Record := List (String × Value)

/-- Go map assignment `m[k] = v`. -/
def Record.set : Record → String → Value → Record
  | [], k, v => [(k, v)]
  | (k1, v1) :: rest, k, v =>
    if k1 = k then (k, v) :: rest else (k1, v1) :: Record.set rest k v

/-- Go map lookup `m[k]`. -/
def Record.get? (m : Record) (k : String) : Option Value :=
  m.lookup k

/-- The statements `Parse` sends to the store. -/
inductive Stmt where
  /-- Statement `CREATE TABLE <shadow> ( like <table> including all);` -/
  | createLike (shadow table : String)
  /-- Statement `TRUNCATE <table>;` -/
  | truncate (table : String)
  /-- Bulk insert `gq.From(<table>).Insert(rows).Exec()` -/
  | insert (table : String) (rows : List Record)
  /-- The swap `DROP TABLE <table>; ALTER TABLE <shadow> RENAME TO <table>;`, sent as one statement -/
  | dropRename (table shadow : String)
  /-- Statement `DROP TABLE <table>;` -/
  | drop (table : String)
  deriving DecidableEq, Repr

/-- The errors `Parse` can return. -/
inductive GoError where
  /-- The `*os.PathError` of `os.Open` or `file.Stat` -/
  | pathError
  /-- The error of `sql.Open` -/
  | sqlOpen
  /-- The end of input, `io.EOF` -/
  | EOF
  /-- An `*xml.SyntaxError` -/
  | syntaxError
  /-- A `*strconv.NumError` naming the text `src` handed to `strconv` -/
  | numError (src : String)
  /-- The store rejected statement `stmt` -/
  | pq (stmt : Stmt)
  deriving DecidableEq, Repr

/-- The tables of the store: a table name holds a row list, or does not exist. -/
abbrev Tables := String → Option (List Record)

/-- The store with table `k` set to `v`. -/
def Tables.put (db : Tables) (k : String) (v : Option (List Record)) : Tables :=
  fun n => if n = k then v else db n

/-- What a statement does to the tables; `none` when the store rejects it
(missing table, name already taken).  A rejected statement changes nothing: the two commands
of `dropRename` run as one implicit transaction. -/
def Tables.apply (db : Tables) : Stmt → Option Tables
  | .createLike shadow table =>
    match db table, db shadow with
    | some _, none => some (db.put shadow (some []))
    | _, _ => none
  | .truncate table =>
    match db table with
    | some _ => some (db.put table (some []))
    | none => none
  | .insert table rows =>
    match db table with
    | some old => some (db.put table (some (old ++ rows)))
    | none => none
  | .dropRename table shadow =>
    match db table with
    | none => none
    | some _ =>
      match (db.put table none) shadow with
      | none => none
      | some rows => some (((db.put table none).put shadow none).put table (some rows))
  | .drop table =>
    match db table with
    | some _ => some (db.put table none)
    | none => none

/-- An open connection: the tables, the statements sent so far (oldest first), and the
statements the store will fail for reasons of its own (`fault n`: the statement sent after `n`
earlier ones is rejected). -/
structure Conn where
  tables : Tables
  log : List Stmt
  fault : Nat → Bool

/-- Go `pgDb.Exec(stmt)`: the statement is sent; it fails or takes effect. -/
def Conn.Exec (c : Conn) (stmt : Stmt) : Option GoError × Conn :=
  if c.fault c.log.length then
    (some (.pq stmt), { c with log := c.log ++ [stmt] })
  else
    match c.tables.apply stmt with
    | none => (some (.pq stmt), { c with log := c.log ++ [stmt] })
    | some db => (none, { c with tables := db, log := c.log ++ [stmt] })

/-! ## Decoding one element -/

/-- Go `copyValue` of `encoding/xml`: the attribute text converted to the field type. -/
def copyValue (kind : Kind) (src : String) : Except GoError Value :=
  match kind with
  | .string => .ok (.string src)
  | .int =>
    if src.data.isEmpty then .ok (.int 0)
    else match ParseInt (TrimSpace src.data) 64 with
      | some i => .ok (.int i)
      | none => .error (.numError (String.mk (TrimSpace src.data)))
  | .byte =>
    if src.data.isEmpty then .ok (.byte 0)
    else match ParseUint (TrimSpace src.data) 8 with
      | some b => .ok (.byte b)
      | none => .error (.numError (String.mk (TrimSpace src.data)))

/-- One attribute of the start tag is stored into every field whose tag names it; the other
fields keep the value they had. -/
def unmarshalAttr : Struct → String × String → Except GoError Struct
  | [], _ => .ok []
  | (f, v) :: rest, a =>
    if a.1 = f.attr then
      match copyValue f.kind a.2 with
      | .error err => .error err
      | .ok v1 =>
        match unmarshalAttr rest a with
        | .error err => .error err
        | .ok rest1 => .ok ((f, v1) :: rest1)
    else
      match unmarshalAttr rest a with
      | .error err => .error err
      | .ok rest1 => .ok ((f, v) :: rest1)

/-- The attribute part of `decoder.DecodeElement(&r, &se)`: the attributes of the start tag are
stored, in order, into the struct `r` points to.  `r` is the pointer `Parse` received, so the
struct is the one the previous element was decoded into. -/
def unmarshalAttrs : Struct → List (String × String) → Except GoError Struct
  | s, [] => .ok s
  | s, a :: rest =>
    match unmarshalAttr s a with
    | .error err => .error err
    | .ok s1 => unmarshalAttrs s1 rest

/-- The row built from the struct: `argument[columnsName[j]] = s.Field(j).Interface()` for every
field index `j`. -/
def makeArgument (columnsName : List String) (s : Struct) : Record :=
  (columnsName.zip (s.map Prod.snd)).foldl (fun m kv => m.set kv.1 kv.2) []

/-! ## Parse -/

/-- How the token loop of `Parse` ends: `return err`, or `break` with the batch not yet
inserted. -/
inductive LoopExit where
  | ret (err : GoError) (c : Conn)
  | brk (arguments : List Record) (c : Conn)

/-- The check at the end of every iteration: a batch of exactly 5000 rows is inserted into
`tempTableName` and the batch is emptied. -/
def flushFull (tempTableName : String) (arguments : List Record) (c : Conn) :
    Except (GoError × Conn) (List Record × Conn) :=
  if arguments.length = 5000 then
    match c.Exec (.insert tempTableName arguments) with
    | (some err, c1) => .error (err, c1)
    | (none, c1) => .ok ([], c1)
  else .ok (arguments, c)

/-- The `for` loop of `Parse` over the tokens the decoder still has to deliver.

`inside = none`: the loop is about to call `decoder.Token()`.  When no token is left the reader
returns a nil token together with `io.EOF` or a syntax error; the loop discards that error
(`t, _ := decoder.Token()`) and breaks.

`inside = some depth`: `decoder.DecodeElement` has stored the attributes of a target element and
is consuming its content, `depth` nested elements deep, up to the matching end tag; running out
of tokens there makes `DecodeElement` fail.  When it returns, the row is appended to the batch. -/
def Parse.loop (elementName tempTableName : String) (columnsName : List String) :
    List Token → Option Nat → Struct → List Record → Conn → LoopExit
  | [], none, _, arguments, c => .brk arguments c
  | [], some _, _, _, c => .ret .syntaxError c
  | t :: rest, none, r, arguments, c =>
    match t with
    | .StartElement name attr =>
      if name = elementName then
        match unmarshalAttrs r attr with
        | .error err => .ret err c
        | .ok r1 => Parse.loop elementName tempTableName columnsName rest (some 0) r1 arguments c
      else
        match flushFull tempTableName arguments c with
        | .error (err, c1) => .ret err c1
        | .ok (arguments1, c1) =>
          Parse.loop elementName tempTableName columnsName rest none r arguments1 c1
    | _ =>
      match flushFull tempTableName arguments c with
      | .error (err, c1) => .ret err c1
      | .ok (arguments1, c1) =>
        Parse.loop elementName tempTableName columnsName rest none r arguments1 c1
  | t :: rest, some depth, r, arguments, c =>
    match t with
    | .StartElement _ _ =>
      Parse.loop elementName tempTableName columnsName rest (some (depth + 1)) r arguments c
    | .EndElement _ =>
      match depth with
      | d + 1 => Parse.loop elementName tempTableName columnsName rest (some d) r arguments c
      | 0 =>
        match flushFull tempTableName (arguments ++ [makeArgument columnsName r]) c with
        | .error (err, c1) => .ret err c1
        | .ok (arguments1, c1) =>
          Parse.loop elementName tempTableName columnsName rest none r arguments1 c1
    | _ => Parse.loop elementName tempTableName columnsName rest (some depth) r arguments c

/-- What `Parse` is called on: the file `f` and the store behind `connectionString`. -/
structure Sys where
  /-- Result of `os.Open(f)` -/
  openErr : Option GoError
  /-- Result of `file.Stat()` -/
  statErr : Option GoError
  /-- Byte size `fi.Size()` -/
  size : Nat
  /-- The tokens the XML reader delivers for the file, in order -/
  toks : List Token
  /-- What the reader reports after the last token: `io.EOF`, or a syntax error when the
  document is malformed at that point -/
  final : GoError
  /-- Result of `sql.Open` -/
  sqlOpenErr : Option GoError
  /-- The tables of the store when `Parse` starts -/
  tables : Tables
  /-- The statements the store fails for reasons of its own -/
  fault : Nat → Bool

/-- What `Parse` leaves behind: the error it returns (`none` for nil) and the connection with
the resulting tables and the statements sent. -/
structure Outcome where
  err : Option GoError
  conn : Conn

/-- The end of `Parse` after the loop (from `if len(arguments) > 0` to `return err`): a
non-empty rest of the batch is inserted, and inside that same branch a shadow table is swapped
in for `table`. -/
def Parse.finish (table tempTableName : String) (arguments : List Record) (c : Conn) : Outcome :=
  if arguments.length > 0 then
    match c.Exec (.insert tempTableName arguments) with
    | (some err, c1) => ⟨some err, c1⟩
    | (none, c1) =>
      if tempTableName ≠ table then
        match c1.Exec (.dropRename table tempTableName) with
        | (some err, c2) => ⟨some err, c2⟩
        | (none, c2) => ⟨none, c2⟩
      else ⟨none, c1⟩
  else ⟨none, c⟩

/-- The part of `Parse` from `s := reflect.ValueOf(r).Elem()` on: the column names, the token
loop, and the end. -/
def Parse.load (table tempTableName elementName : String) (r : Struct) (toks : List Token)
    (c : Conn) : Outcome :=
  let columnsName := r.map fun fv => ToLower fv.1.name
  match Parse.loop elementName tempTableName columnsName toks none r [] c with
  | .ret err c1 => ⟨some err, c1⟩
  | .brk arguments c1 => Parse.finish table tempTableName arguments c1

/-- The part of `Parse` from `if tempTableName == table` on: the target table itself is
truncated before it is loaded. -/
def Parse.body (table tempTableName elementName : String) (r : Struct) (toks : List Token)
    (c : Conn) : Outcome :=
  if tempTableName = table then
    match c.Exec (.truncate tempTableName) with
    | (some err, c1) => ⟨some err, c1⟩
    | (none, c1) => Parse.load table tempTableName elementName r toks c1
  else Parse.load table tempTableName elementName r toks c

/-- Go `Parse(f, table, connectionString, elementName, r)`.  A file larger than 20388921 bytes
is loaded into the shadow table `temp_<table>`, whose `DROP` is deferred to the return of
`Parse`; any other file is loaded into `table` itself.  The counter `total` of the source is
never read and is left out. -/
def Parse (sys : Sys) (table elementName : String) (r : Struct) : Outcome :=
  let c0 : Conn := ⟨sys.tables, [], sys.fault⟩
  match sys.openErr with
  | some err => ⟨some err, c0⟩
  | none =>
    match sys.statErr with
    | some err => ⟨some err, c0⟩
    | none =>
      match sys.sqlOpenErr with
      | some err => ⟨some err, c0⟩
      | none =>
        if sys.size > 20388921 then
          match c0.Exec (.createLike ("temp_" ++ table) table) with
          | (some err, c1) => ⟨some err, c1⟩
          | (none, c1) =>
            let out := Parse.body table ("temp_" ++ table) elementName r sys.toks c1
            ⟨out.err, (out.conn.Exec (.drop ("temp_" ++ table))).2⟩
        else
          Parse.body table table elementName r sys.toks c0

/-! ## The dispatch of `main` -/

/-- A compiled pattern `regexp.MustCompile("^(<tag>)[0-9]{8}_.+")`: all 21 patterns of the
source have this shape and differ only in the tag. -/
structure Pattern where
  tag : String
  deriving DecidableEq, Repr

/-- The rest of `s` after the literal `tag`, when `s` starts with it. -/
def afterTag : List Char → List Char → Option (List Char)
  | [], s => some s
  | _ :: _, [] => none
  | a :: tag, c :: s => if a = c then afterTag tag s else none

/-- The part `[0-9]{8}_.+` at the start of `s`: eight ASCII digits, an underscore, and at least
one character, which `.` matches unless it is a newline.  The pattern has no `$`, so anything
may follow. -/
def matchDate (s : List Char) : Bool :=
  (s.take 8).length == 8 && (s.take 8).all Char.isDigit &&
    match s.drop 8 with
    | u :: c :: _ => u == '_' && c != '\n'
    | _ => false

/-- Go `p.MatchString(s)`: the pattern is anchored at the start by `^`. -/
def Pattern.MatchString (p : Pattern) (s : String) : Bool :=
  match afterTag p.tag.data s.data with
  | some rest => matchDate rest
  | none => false

def ACTSTAT_PATTERN : Pattern := ⟨"AS_ACTSTAT_"⟩
def ADDROBJ_PATTERN : Pattern := ⟨"AS_ADDROBJ_"⟩
def CENTERST_PATTERN : Pattern := ⟨"AS_CENTERST_"⟩
def CURENTST_PATTERN : Pattern := ⟨"AS_CURENTST_"⟩
def DEL_ADDROBJ_PATTERN : Pattern := ⟨"AS_DEL_ADDROBJ_"⟩
def DEL_HOUSE_PATTERN : Pattern := ⟨"AS_DEL_HOUSE_"⟩
def DEL_HOUSEINT_PATTERN : Pattern := ⟨"AS_DEL_HOUSEINT_"⟩
def DEL_NORMDOC_PATTERN : Pattern := ⟨"AS_DEL_NORMDOC_"⟩
def ESTSTAT_PATTERN : Pattern := ⟨"AS_ESTSTAT_"⟩
def HOUSE_PATTERN : Pattern := ⟨"AS_HOUSE_"⟩
def HOUSEINT_PATTERN : Pattern := ⟨"AS_HOUSEINT_"⟩
def HSTSTAT_PATTERN : Pattern := ⟨"AS_HSTSTAT_"⟩
def INTVSTAT_PATTERN : Pattern := ⟨"AS_INTVSTAT_"⟩
def LANDMARK_PATTERN : Pattern := ⟨"AS_LANDMARK_"⟩
def NDOCTYPE_PATTERN : Pattern := ⟨"AS_NDOCTYPE_"⟩
def NORMDOC_PATTERN : Pattern := ⟨"AS_NORMDOC_"⟩
def OPERSTAT_PATTERN : Pattern := ⟨"AS_OPERSTAT_"⟩
def SOCRBASE_PATTERN : Pattern := ⟨"AS_SOCRBASE_"⟩
def STRSTAT_PATTERN : Pattern := ⟨"AS_STRSTAT_"⟩
def STEAD_PATTERN : Pattern := ⟨"AS_STEAD_"⟩
def ROOM_PATTERN : Pattern := ⟨"AS_ROOM_"⟩

/-- The arguments of one `Parse` call of `main` that depend on the case: the target table, the
element name, and the type of the record `r := new(...)`. -/
structure Call where
  table : String
  elementName : String
  r : RecordType
  deriving DecidableEq, Repr

/-- The cases of the `switch` over `file.Name()` in `main`, in source order, each with the
`Parse` call of its body. -/
def mainCases : List (Pattern × Call) := [
  (ACTSTAT_PATTERN, ⟨"actual_status", "ActualStatus", ActualStatus⟩),
  (ADDROBJ_PATTERN, ⟨"address_objects", "Object", Object⟩),
  (CENTERST_PATTERN, ⟨"center_status", "CenterStatus", CenterStatus⟩),
  (CURENTST_PATTERN, ⟨"current_status", "CurrentStatus", CenterStatus⟩),
  (DEL_ADDROBJ_PATTERN, ⟨"del_address_objects", "Object", Object⟩),
  (DEL_HOUSE_PATTERN, ⟨"del_house", "House", House⟩),
  (DEL_HOUSEINT_PATTERN, ⟨"del_house_interval", "HouseInterval", HouseInterval⟩),
  (DEL_NORMDOC_PATTERN, ⟨"del_normative_document", "NormativeDocument", NormativeDocument⟩),
  (ESTSTAT_PATTERN, ⟨"estate_status", "EstateStatus", EstateStatus⟩),
  (HOUSE_PATTERN, ⟨"house", "House", House⟩),
  (HOUSEINT_PATTERN, ⟨"house_interval", "HouseInterval", HouseInterval⟩),
  (HSTSTAT_PATTERN, ⟨"house_state_status", "HouseStateStatus", HouseStateStatus⟩),
  (INTVSTAT_PATTERN, ⟨"interval_status", "IntervalStatus", IntervalStatus⟩),
  (LANDMARK_PATTERN, ⟨"landmark", "Landmark", Landmark⟩),
  (NDOCTYPE_PATTERN, ⟨"normative_document_type", "NormativeDocumentType", NormativeDocumentType⟩),
  (NORMDOC_PATTERN, ⟨"normative_document", "NormativeDocument", NormativeDocumentType⟩),
  (OPERSTAT_PATTERN, ⟨"operation_status", "OperationStatus", OperationStatus⟩),
  (SOCRBASE_PATTERN, ⟨"address_object_type", "AddressObjectType", AddressObjectType⟩),
  (STRSTAT_PATTERN, ⟨"structure_status", "StructureStatus", StructureStatus⟩),
  (STEAD_PATTERN, ⟨"steads", "Stead", Stead⟩),
  (ROOM_PATTERN, ⟨"rooms", "Room", Room⟩)]

/-- The `switch` of `main`: the body of the first case whose pattern matches runs; `none` is
the `default` branch, which calls nothing. -/
def dispatch (fileName : String) : Option Call :=
  (mainCases.find? fun pc => pc.1.MatchString fileName).map Prod.snd
/-! ## Definitions used to state the properties -/

/-- The byte size above which `Parse` loads into a shadow table. -/
def threshold : Nat := 20388921

/-- The table the bulk inserts of `Parse` are directed to for a file of `size` bytes. -/
def writeTarget (size : Nat) (table : String) : String :=
  if size > threshold then "temp_" ++ table else table

/-- The column names `Parse` computes before the loop: the lower-cased field names. -/
def columnsOf (r : Struct) : List String :=
  r.map fun fv => ToLower fv.1.name

/-- The rows the token loop appends to the batch, in order, and the decode error that stops it
(`none` when the loop reaches the end of the tokens): the loop of `Parse` with the store left
out. -/
def decodedRows (elementName : String) (columnsName : List String) :
    List Token → Option Nat → Struct → List Record × Option GoError
  | [], none, _ => ([], none)
  | [], some _, _ => ([], some .syntaxError)
  | t :: rest, none, r =>
    match t with
    | .StartElement name attr =>
      if name = elementName then
        match unmarshalAttrs r attr with
        | .error err => ([], some err)
        | .ok r1 => decodedRows elementName columnsName rest (some 0) r1
      else decodedRows elementName columnsName rest none r
    | _ => decodedRows elementName columnsName rest none r
  | t :: rest, some depth, r =>
    match t with
    | .StartElement _ _ => decodedRows elementName columnsName rest (some (depth + 1)) r
    | .EndElement _ =>
      match depth with
      | d + 1 => decodedRows elementName columnsName rest (some d) r
      | 0 =>
        (makeArgument columnsName r :: (decodedRows elementName columnsName rest none r).1,
          (decodedRows elementName columnsName rest none r).2)
    | _ => decodedRows elementName columnsName rest (some depth) r

/-- The bulk inserts of a statement log, oldest first: target table and rows of each. -/
def insertsOf (log : List Stmt) : List (String × List Record) :=
  log.filterMap fun s =>
    match s with
    | .insert t rows => some (t, rows)
    | _ => none

/-- A list cut into consecutive chunks of `n`: chunk `i` is the `n` entries from position
`n * i` on, and the last chunk holds what is left. -/
def chunksOf {α : Type} (n : Nat) (rows : List α) : List (List α) :=
  (List.range ((rows.length + n - 1) / n)).map fun i => (rows.drop (n * i)).take n

/-- Whether a statement changes the content or the existence of table `t`. -/
def Stmt.modifies (t : String) : Stmt → Bool
  | .createLike shadow _ => shadow == t
  | .truncate table => table == t
  | .insert table _ => table == t
  | .dropRename table shadow => table == t || shadow == t
  | .drop table => table == t

/-- An element of a flat element stream: its name and its attributes. -/
abbrev Element := String × List (String × String)

/-- The tokens of a sequence of elements without content, one after the other. -/
def stream (elems : List Element) : List Token :=
  elems.flatMap fun e => [.StartElement e.1 e.2, .EndElement e.1]

/-- The states of the struct behind `r` after each of a sequence of start tags has been
decoded into it in turn, up to the first one that fails. -/
def snapshots : Struct → List (List (String × String)) → List Struct
  | _, [] => []
  | r, attr :: rest =>
    match unmarshalAttrs r attr with
    | .error _ => []
    | .ok r1 => r1 :: snapshots r1 rest

/-- The inserts of `bs` into `tgt` are what happened between connection states `c` and `c1`:
they were sent in order, each batch holds 5000 rows, every one took effect (so the store had no
fault for any of them), and no other table changed. -/
def Flushed (tgt : String) (c c1 : Conn) (bs : List (List Record)) : Prop :=
  c1.log = c.log ++ bs.map (Stmt.insert tgt) ∧ c1.fault = c.fault ∧
    (∀ b ∈ bs, b.length = 5000) ∧
    c1.tables tgt = (c.tables tgt).map (fun old => old ++ bs.flatten) ∧
    (∀ k, k ≠ tgt → c1.tables k = c.tables k) ∧
    (bs ≠ [] → (c.tables tgt).isSome = true) ∧
    (∀ i, i < bs.length → c.fault (c.log.length + i) = false)

/-- What a run of the token loop does, in terms of the rows it decodes. -/
def LoopSpec (elementName tgt : String) (cols : List String) (toks : List Token)
    (inside : Option Nat) (r : Struct) (args : List Record) (c : Conn) : Prop :=
  (∀ args1 c1, Parse.loop elementName tgt cols toks inside r args c = .brk args1 c1 →
    ∃ bs, Flushed tgt c c1 bs ∧ (decodedRows elementName cols toks inside r).2 = none ∧
      bs.flatten ++ args1 = args ++ (decodedRows elementName cols toks inside r).1 ∧
      args1.length < 5000) ∧
  (∀ err c1, Parse.loop elementName tgt cols toks inside r args c = .ret err c1 →
    ∃ bs,
      (Flushed tgt c c1 bs ∧ (decodedRows elementName cols toks inside r).2 = some err ∧
        ∃ args1, bs.flatten ++ args1 = args ++ (decodedRows elementName cols toks inside r).1 ∧
          args1.length < 5000) ∨
      (∃ c0 b, Flushed tgt c c0 bs ∧ b.length = 5000 ∧ err = .pq (.insert tgt b) ∧
        c1.tables = c0.tables ∧ c1.log = c0.log ++ [.insert tgt b] ∧ c1.fault = c0.fault ∧
        (c.fault c0.log.length = true ∨ c.tables tgt = none) ∧
        ∃ rest, bs.flatten ++ (b ++ rest)
          = args ++ (decodedRows elementName cols toks inside r).1))

/-- The connection a loop exit leaves behind. -/
def LoopExit.conn : LoopExit → Conn
  | .ret _ c => c
  | .brk _ c => c

/-- Whether an error comes from decoding an element: a conversion error of an attribute, or a
syntax error met inside the element. -/
def GoError.isDecode : GoError → Bool
  | .syntaxError => true
  | .numError _ => true
  | _ => false

/-- Whether an error is the failure of a bulk insert. -/
def GoError.isInsert : GoError → Bool
  | .pq (.insert _ _) => true
  | _ => false

/-- The elements of a stream that carry the configured element name, in document order. -/
def targetsOf (elementName : String) (elems : List Element) : List Element :=
  elems.filter fun x => x.1 = elementName

/-- The decode error of the first of a sequence of start tags that cannot be decoded into the
struct behind `r`, when there is one. -/
def firstError : Struct → List (List (String × String)) → Option GoError
  | _, [] => none
  | r, attr :: rest =>
    match unmarshalAttrs r attr with
    | .error err => some err
    | .ok r1 => firstError r1 rest

/-! ## Target elements of a token stream -/


/-- The attributes of the start tags that carry the configured element name, in document
order. -/
def targetAttrs (elementName : String) (toks : List Token) : List (List (String × String)) :=
  toks.filterMap fun t =>
    match t with
    | .StartElement name attr => if name = elementName then some attr else none
    | _ => none

/-- Whether, from the decoder state `inside` on, every element with the configured name is
closed before the tokens end and holds no element of that name inside it.  `inside = some depth`
means the tokens start inside such an element, `depth` nested elements deep. -/
def Unnested (elementName : String) : List Token → Option Nat → Bool
  | [], none => true
  | [], some _ => false
  | t :: rest, none =>
    match t with
    | .StartElement name _ =>
      if name = elementName then Unnested elementName rest (some 0)
      else Unnested elementName rest none
    | _ => Unnested elementName rest none
  | t :: rest, some depth =>
    match t with
    | .StartElement name _ =>
      if name = elementName then false else Unnested elementName rest (some (depth + 1))
    | .EndElement _ =>
      match depth with
      | d + 1 => Unnested elementName rest (some d)
      | 0 => Unnested elementName rest none
    | _ => Unnested elementName rest (some depth)

/-! ## Sample inputs -/


/-- A store with the single table `table`, holding the rows `old`. -/
def oneTable (table : String) (old : List Record) : Tables :=
  fun n => if n = table then some old else none

/-- A file of `size` bytes that opens, whose reader delivers `toks` and then reports `final`,
loaded into the store `tables` over a connection that opens and has no faults of its own. -/
def fileOn (size : Nat) (toks : List Token) (final : GoError) (tables : Tables) : Sys :=
  ⟨none, none, size, toks, final, none, tables, fun _ => false⟩

/-- A row already in a table before the load. -/
def oldRow : Record := [("name", .string "old")]

/-- Two `ActualStatus` elements inside their root; the second has no `NAME` attribute. -/
def statusDoc : List Token :=
  [.StartElement "ActualStatuses" [],
   .StartElement "ActualStatus" [("ACTSTATID", "1"), ("NAME", "a")], .EndElement "ActualStatus",
   .StartElement "ActualStatus" [("ACTSTATID", "2")], .EndElement "ActualStatus",
   .EndElement "ActualStatuses"]

/-- A document cut off after its first element: the root is never closed. -/
def cutDoc : List Token :=
  [.StartElement "ActualStatuses" [],
   .StartElement "ActualStatus" [("ACTSTATID", "1"), ("NAME", "a")], .EndElement "ActualStatus"]

/-- An element whose `ACTSTATID` is not a number. -/
def badElem : Element := ("ActualStatus", [("ACTSTATID", "x")])

/-- Two `ActualStatus` elements, the second inside the first. -/
def nestedDoc : List Token :=
  [.StartElement "ActualStatus" [("ACTSTATID", "1")],
   .StartElement "ActualStatus" [("ACTSTATID", "2")], .EndElement "ActualStatus",
   .EndElement "ActualStatus"]

/-- A store with the single table `table` whose connection rejects exactly the statement sent
after `n` earlier ones. -/
def faultAt (n : Nat) (size : Nat) (toks : List Token) (tables : Tables) : Sys :=
  ⟨none, none, size, toks, .EOF, none, tables, fun k => k == n⟩

/-! ## The version check and the cycle of `main` -/

/-- Go `string(i)` for an `int`: the UTF-8 text of the code point `i`; every value that is not a
valid code point (negative, a surrogate, above `0x10FFFF`) gives the text of `U+FFFD`. -/
def intstring (i : Int) : String :=
  if 0 ≤ i ∧ i ≤ 0x10FFFF ∧ ¬(0xD800 ≤ i ∧ i ≤ 0xDFFF) then
    String.singleton (Char.ofNat i.toNat)
  else String.singleton (Char.ofNat 0xFFFD)

/-- The errors `checkNewFile` meets. -/
inductive CheckError where
  /-- The error of `client.Do` -/
  | http
  /-- The error of `sql.Open` -/
  | sqlOpen
  /-- The value `sql.ErrNoRows` -/
  | noRows
  /-- Another error of `QueryRow(...).Scan` -/
  | scan
  /-- The error of the `UPDATE` -/
  | update
  deriving DecidableEq, Repr

/-- What `checkNewFile` is called on: the answer of the remote service and the `config` table of
the store. -/
structure CheckEnv where
  /-- Result of `client.Do(req)` -/
  doErr : Option CheckError
  /-- Field `VersionId` of the decoded answer (0 when the body does not decode) -/
  VersionId : Int
  /-- Field `FiasCompleteXmlUrl` of the decoded answer -/
  FiasCompleteXmlUrl : String
  /-- Result of `sql.Open` -/
  sqlOpenErr : Option CheckError
  /-- The `value` of the row of `config` with id `TextVersion`; `none` when there is no row -/
  value : Option String
  /-- A failure of the query other than a missing row -/
  scanErr : Option CheckError
  /-- Result of the `UPDATE` statement, were it sent -/
  updateErr : Option CheckError

/-- How a call of `checkNewFile` ends: `log.Fatal` ends the process, otherwise it returns
`(path, err)`. -/
inductive CheckExit where
  | fatal (err : CheckError)
  | ret (path : String) (err : Option CheckError)
  deriving DecidableEq, Repr

/-- What `checkNewFile` leaves behind: how it ended, the stored marker afterwards, and the
values of the `UPDATE` statements it sent. -/
structure CheckOutcome where
  exit : CheckExit
  value : Option String
  updates : List String
  deriving DecidableEq, Repr

/-- Go `checkNewFile(connectionString)`. -/
def checkNewFile (env : CheckEnv) : CheckOutcome :=
  match env.doErr with
  | some err => ⟨.fatal err, env.value, []⟩
  | none =>
    let versionID := env.VersionId
    match env.sqlOpenErr with
    | some err => ⟨.ret "" (some err), env.value, []⟩
    | none =>
      match env.scanErr, env.value with
      | some err, _ =>
        if err = .noRows then ⟨.ret "" (some err), env.value, []⟩
        else ⟨.fatal err, env.value, []⟩
      | none, none => ⟨.ret "" (some .noRows), env.value, []⟩
      | none, some fileVersion =>
        if fileVersion ≠ intstring versionID then
          match env.updateErr with
          | some err => ⟨.ret "" (some err), env.value, [intstring versionID]⟩
          | none =>
            ⟨.ret env.FiasCompleteXmlUrl none, some (intstring versionID), [intstring versionID]⟩
        else ⟨.ret "" none, env.value, []⟩

/-- The next call of `checkNewFile`: the store is the one the previous call left, the remote
service reports `VersionId` and `url`, and nothing fails. -/
def nextCheck (prev : CheckOutcome) (VersionId : Int) (url : String) : CheckOutcome :=
  checkNewFile ⟨none, VersionId, url, none, prev.value, none, none⟩

/-- Go `time.Duration`: a count of nanoseconds. -/
abbrev Duration := Int

/-- Go `time.Hour`. -/
def Hour : Duration := 60 * (60 * (1000 * (1000 * (1000 * 1))))

/-- What one iteration of the loop of `main` does that can be seen from outside. -/
inductive Event where
  /-- A call `time.Sleep(d)` -/
  | sleep (d : Duration)
  /-- A call `Parse(dir+fileName, call.table, dbinfo, call.elementName, new(call.r))` -/
  | parse (fileName : String) (call : Call)
  deriving DecidableEq, Repr

/-- How an iteration of the loop of `main` ends. -/
inductive Next where
  /-- The end of the loop body is reached: the `for` starts the next iteration -/
  | again
  /-- The loop is left by `break`, or the process ends in `log.Fatal` -/
  | leave
  deriving DecidableEq, Repr

/-- What one iteration of the loop of `main` is run on: the results of the calls it makes. -/
structure Cycle where
  /-- Result of `checkNewFile(dbinfo)` -/
  check : CheckExit
  /-- Error of `DownLoadFile(check)` -/
  downloadErr : Option String
  /-- Error of `UnRar(fileName)` -/
  unrarErr : Option String
  /-- Error of `filepath.Abs` -/
  absErr : Option String
  /-- Error of `ioutil.ReadDir("FIAS")` -/
  readDirErr : Option String
  /-- The names of the files `ReadDir` lists -/
  files : List String

/-- The per-file loop of `main`: every file whose name matches a case is handed to `Parse`; the
result of `Parse` is not looked at. -/
def parseFiles (files : List String) : List Event :=
  files.filterMap fun name => (dispatch name).map fun call => Event.parse name call

/-- One iteration of the `for` loop of `main`. -/
def mainCycle (w : Cycle) : List Event × Next :=
  match w.check with
  | .fatal _ => ([], .leave)
  | .ret _ (some _) => ([], .leave)
  | .ret check none =>
    if check = "" then ([.sleep (24 * Hour)], .leave)
    else
      match w.downloadErr with
      | some _ => ([], .leave)
      | none =>
        match w.unrarErr with
        | some _ => ([], .leave)
        | none =>
          match w.absErr with
          | some _ => ([], .leave)
          | none =>
            match w.readDirErr with
            | some _ => ([], .leave)
            | none => (parseFiles w.files ++ [.sleep (150 * Hour)], .again)

/-- The loop of `main` over the iterations it gets to run, each with the results of its calls:
the events in order, up to the iteration that leaves the loop. -/
def mainLoop : List Cycle → List Event
  | [] => []
  | w :: rest =>
    match mainCycle w with
    | (events, .again) => events ++ mainLoop rest
    | (events, .leave) => events

/-- The 21 compiled patterns of the source, in the order they are declared. -/
def patterns : List Pattern :=
  [ACTSTAT_PATTERN, ADDROBJ_PATTERN, CENTERST_PATTERN, CURENTST_PATTERN, DEL_ADDROBJ_PATTERN,
   DEL_HOUSE_PATTERN, DEL_HOUSEINT_PATTERN, DEL_NORMDOC_PATTERN, ESTSTAT_PATTERN, HOUSE_PATTERN,
   HOUSEINT_PATTERN, HSTSTAT_PATTERN, INTVSTAT_PATTERN, LANDMARK_PATTERN, NDOCTYPE_PATTERN,
   NORMDOC_PATTERN, OPERSTAT_PATTERN, SOCRBASE_PATTERN, STRSTAT_PATTERN, STEAD_PATTERN,
   ROOM_PATTERN]

/-- A cycle in which the version check returns the retrieval URL `url` and every later step
succeeds, with the unpacked files `files`. -/
def newVersionCycle (url : String) (files : List String) : Cycle :=
  ⟨.ret url none, none, none, none, none, files⟩

/-- A cycle in which the version check reports the version as unchanged. -/
def unchangedCycle : Cycle :=
  ⟨.ret "" none, none, none, none, none, []⟩

/-! # Properties -/

/-! ## The store -/

theorem temp_ne (table : String) : "temp_" ++ table ≠ table := by
  intro h
  have h1 := congrArg String.length h
  have h2 : "temp_".length = 5 := by decide
  rw [String.length_append, h2] at h1
  omega

theorem Exec_log (c : Conn) (s : Stmt) : (c.Exec s).2.log = c.log ++ [s] := by
  unfold Conn.Exec
  split
  · rfl
  · split <;> rfl

theorem Exec_fault (c : Conn) (s : Stmt) : (c.Exec s).2.fault = c.fault := by
  unfold Conn.Exec
  split
  · rfl
  · split <;> rfl

theorem Exec_err (c : Conn) (s : Stmt) (err : GoError) (c1 : Conn)
    (h : c.Exec s = (some err, c1)) :
    err = .pq s ∧ c1.tables = c.tables ∧ c1.log = c.log ++ [s] ∧ c1.fault = c.fault ∧
      (c.fault c.log.length = true ∨ c.tables.apply s = none) := by
  unfold Conn.Exec at h
  split at h
  · rename_i hf
    simp only [Prod.mk.injEq, Option.some.injEq] at h
    obtain ⟨h1, h2⟩ := h
    subst h1 h2
    exact ⟨rfl, rfl, rfl, rfl, Or.inl hf⟩
  · split at h
    · rename_i ha
      simp only [Prod.mk.injEq, Option.some.injEq] at h
      obtain ⟨h1, h2⟩ := h
      subst h1 h2
      exact ⟨rfl, rfl, rfl, rfl, Or.inr ha⟩
    · simp at h

theorem Exec_ok (c : Conn) (s : Stmt) (c1 : Conn) (h : c.Exec s = (none, c1)) :
    c.fault c.log.length = false ∧ c.tables.apply s = some c1.tables ∧
      c1.log = c.log ++ [s] ∧ c1.fault = c.fault := by
  unfold Conn.Exec at h
  split at h
  · simp at h
  · rename_i hf
    split at h
    · simp at h
    · rename_i db ha
      simp only [Prod.mk.injEq, true_and] at h
      subst h
      exact ⟨by simpa using hf, ha, rfl, rfl⟩

theorem apply_insert (db db1 : Tables) (t : String) (b : List Record)
    (h : db.apply (.insert t b) = some db1) :
    ∃ old, db t = some old ∧ db1 = db.put t (some (old ++ b)) := by
  simp only [Tables.apply] at h
  split at h
  · rename_i old ho
    exact ⟨old, ho, by simpa using h.symm⟩
  · simp at h

theorem Flushed_refl (tgt : String) (c : Conn) : Flushed tgt c c [] := by
  refine ⟨by simp, rfl, by simp, ?_, fun _ _ => rfl, by simp, by simp⟩
  cases c.tables tgt <;> simp

theorem Flushed_cons (tgt : String) (c c1 c2 : Conn) (b : List Record) (bs : List (List Record))
    (hb : b.length = 5000) (h1 : c.Exec (.insert tgt b) = (none, c1)) (h2 : Flushed tgt c1 c2 bs) :
    Flushed tgt c c2 (b :: bs) := by
  obtain ⟨hnof, hap, hlog, hfault⟩ := Exec_ok c _ c1 h1
  obtain ⟨old, hold, hdb⟩ := apply_insert _ _ _ _ hap
  obtain ⟨g1, g2, g3, g4, g5, _, g7⟩ := h2
  refine ⟨?_, ?_, ?_, ?_, ?_, ?_, ?_⟩
  · rw [g1, hlog]; simp
  · rw [g2, hfault]
  · intro x hx
    rcases List.mem_cons.mp hx with rfl | hx
    · exact hb
    · exact g3 x hx
  · rw [g4, hdb, hold]; simp [Tables.put]
  · intro k hk
    rw [g5 k hk, hdb]; simp [Tables.put, hk]
  · intro _; simp [hold]
  · intro i hi
    cases i with
    | zero => simpa using hnof
    | succ i =>
      have h3 := g7 i (by simpa using hi)
      rw [hfault, hlog, List.length_append, List.length_singleton] at h3
      rw [← h3]
      congr 1
      omega

/-! ## The token loop -/

theorem flushFull_lt (tgt : String) (args : List Record) (c : Conn) (h : args.length < 5000) :
    flushFull tgt args c = .ok (args, c) := by
  unfold flushFull
  rw [if_neg (by omega)]

theorem loop_spec (elementName tgt : String) (cols : List String) (toks : List Token) :
    ∀ (inside : Option Nat) (r : Struct) (args : List Record) (c : Conn),
      args.length < 5000 → LoopSpec elementName tgt cols toks inside r args c := by
  induction toks with
  | nil =>
    intro inside r args c hlen
    cases inside with
    | none =>
      refine ⟨?_, ?_⟩
      · intro args1 c1 h
        simp only [Parse.loop, LoopExit.brk.injEq] at h
        obtain ⟨rfl, rfl⟩ := h
        exact ⟨[], Flushed_refl tgt _, by simp [decodedRows], by simp [decodedRows], hlen⟩
      · intro err c1 h
        simp [Parse.loop] at h
    | some d =>
      refine ⟨?_, ?_⟩
      · intro args1 c1 h
        simp [Parse.loop] at h
      · intro err c1 h
        simp only [Parse.loop, LoopExit.ret.injEq] at h
        obtain ⟨rfl, rfl⟩ := h
        exact ⟨[], Or.inl ⟨Flushed_refl tgt _, by simp [decodedRows], args,
          by simp [decodedRows], hlen⟩⟩
  | cons t rest ih =>
    intro inside r args c hlen
    cases inside with
    | none =>
      cases t with
      | StartElement name attr =>
        by_cases hn : name = elementName
        · cases hu : unmarshalAttrs r attr with
          | error e =>
            refine ⟨?_, ?_⟩
            · intro args1 c1 h
              simp [Parse.loop, hn, hu] at h
            · intro err c1 h
              simp only [Parse.loop, hn, hu, if_true, LoopExit.ret.injEq] at h
              obtain ⟨rfl, rfl⟩ := h
              exact ⟨[], Or.inl ⟨Flushed_refl tgt _, by simp [decodedRows, hn, hu], args,
                by simp [decodedRows, hn, hu], hlen⟩⟩
          | ok r1 =>
            have := ih (some 0) r1 args c hlen
            simpa [LoopSpec, Parse.loop, decodedRows, hn, hu] using this
        · have := ih none r args c hlen
          simpa [LoopSpec, Parse.loop, decodedRows, hn, flushFull_lt tgt args c hlen] using this
      | EndElement name =>
        have := ih none r args c hlen
        simpa [LoopSpec, Parse.loop, decodedRows, flushFull_lt tgt args c hlen] using this
      | CharData data =>
        have := ih none r args c hlen
        simpa [LoopSpec, Parse.loop, decodedRows, flushFull_lt tgt args c hlen] using this
      | Misc =>
        have := ih none r args c hlen
        simpa [LoopSpec, Parse.loop, decodedRows, flushFull_lt tgt args c hlen] using this
    | some depth =>
      cases t with
      | StartElement name attr =>
        have := ih (some (depth + 1)) r args c hlen
        simpa [LoopSpec, Parse.loop, decodedRows] using this
      | CharData data =>
        have := ih (some depth) r args c hlen
        simpa [LoopSpec, Parse.loop, decodedRows] using this
      | Misc =>
        have := ih (some depth) r args c hlen
        simpa [LoopSpec, Parse.loop, decodedRows] using this
      | EndElement name =>
        cases depth with
        | succ d =>
          have := ih (some d) r args c hlen
          simpa [LoopSpec, Parse.loop, decodedRows] using this
        | zero =>
          by_cases hfull : (args ++ [makeArgument cols r]).length = 5000
          · cases hx : c.Exec (.insert tgt (args ++ [makeArgument cols r])) with
            | mk oe cx =>
              cases oe with
              | some e =>
                obtain ⟨he, ht, hl, hf, hcause⟩ := Exec_err _ _ _ _ hx
                refine ⟨?_, ?_⟩
                · intro args1 c1 h
                  simp [Parse.loop, flushFull, hfull, hx] at h
                · intro err c1 h
                  simp only [Parse.loop, flushFull, hfull, hx, if_true, LoopExit.ret.injEq] at h
                  obtain ⟨rfl, rfl⟩ := h
                  refine ⟨[], Or.inr ⟨c, _, Flushed_refl tgt _, hfull, he, ht, hl, hf, ?_,
                    (decodedRows elementName cols rest none r).1, ?_⟩⟩
                  · rcases hcause with h1 | h1
                    · exact Or.inl h1
                    · right
                      simp only [Tables.apply] at h1
                      split at h1
                      · simp at h1
                      · assumption
                  · simp [decodedRows]
              | none =>
                obtain ⟨_, hap, hlog, hfault⟩ := Exec_ok _ _ _ hx
                obtain ⟨old, hold, hdb⟩ := apply_insert _ _ _ _ hap
                obtain ⟨ih1, ih2⟩ := ih none r [] cx (by simp)
                refine ⟨?_, ?_⟩
                · intro args1 c1 h
                  simp only [Parse.loop, flushFull, hfull, hx, if_true] at h
                  obtain ⟨bs, g1, g2, g3, g4⟩ := ih1 args1 c1 h
                  refine ⟨_ :: bs, Flushed_cons tgt c cx c1 _ bs hfull hx g1, ?_, ?_, g4⟩
                  · simpa [decodedRows] using g2
                  · simp only [decodedRows, List.flatten_cons, List.append_assoc, g3]
                    simp
                · intro err c1 h
                  simp only [Parse.loop, flushFull, hfull, hx, if_true] at h
                  obtain ⟨bs, g | g⟩ := ih2 err c1 h
                  · obtain ⟨g1, g2, args1, g3, g4⟩ := g
                    refine ⟨_ :: bs, Or.inl ⟨Flushed_cons tgt c cx c1 _ bs hfull hx g1, ?_,
                      args1, ?_, g4⟩⟩
                    · simpa [decodedRows] using g2
                    · simp only [decodedRows, List.flatten_cons, List.append_assoc, g3]
                      simp
                  · obtain ⟨c0, b, g1, g2, g3, g4, g5, g6, g7, tl, g8⟩ := g
                    refine ⟨_ :: bs, Or.inr ⟨c0, b, Flushed_cons tgt c cx c0 _ bs hfull hx g1,
                      g2, g3, g4, g5, g6, ?_, tl, ?_⟩⟩
                    · rcases g7 with h1 | h1
                      · left; rw [← hfault]; exact h1
                      · rw [hdb] at h1; simp [Tables.put] at h1
                    · simp only [decodedRows, List.flatten_cons, List.append_assoc, g8]
                      simp
          · have hlt : (args ++ [makeArgument cols r]).length < 5000 := by
              simp only [List.length_append, List.length_singleton] at hfull ⊢
              omega
            have := ih none r (args ++ [makeArgument cols r]) c hlt
            simpa [LoopSpec, Parse.loop, decodedRows, flushFull_lt tgt _ c hlt] using this

theorem loop_shape (elementName tgt : String) (cols : List String) (toks : List Token)
    (r : Struct) (c : Conn) :
    ∃ bs : List (List Record),
      (Parse.loop elementName tgt cols toks none r [] c).conn.log
          = c.log ++ bs.map (Stmt.insert tgt) ∧
        (∀ k, k ≠ tgt →
          (Parse.loop elementName tgt cols toks none r [] c).conn.tables k = c.tables k) ∧
        (Parse.loop elementName tgt cols toks none r [] c).conn.fault = c.fault := by
  obtain ⟨h1, h2⟩ := loop_spec elementName tgt cols toks none r [] c (by simp)
  cases hx : Parse.loop elementName tgt cols toks none r [] c with
  | brk args1 c1 =>
    obtain ⟨bs, ⟨g1, g2, _, _, g5, _⟩, _⟩ := h1 args1 c1 hx
    exact ⟨bs, g1, g5, g2⟩
  | ret err c1 =>
    obtain ⟨bs, g | g⟩ := h2 err c1 hx
    · obtain ⟨⟨g1, g2, _, _, g5, _⟩, _⟩ := g
      exact ⟨bs, g1, g5, g2⟩
    · obtain ⟨c0, b, ⟨g1, g2, _, _, g5, _⟩, _, _, k1, k2, k3, _⟩ := g
      refine ⟨bs ++ [b], ?_, ?_, ?_⟩
      · simp [LoopExit.conn, k2, g1]
      · intro k hk
        simp [LoopExit.conn, k1, g5 k hk]
      · simp [LoopExit.conn, k3, g2]


theorem Exec_tables_other (c : Conn) (s : Stmt) (k : String) (h : s.modifies k = false) :
    (c.Exec s).2.tables k = c.tables k := by
  unfold Conn.Exec
  split
  · rfl
  · split
    · rfl
    · rename_i db hdb
      cases s with
      | createLike shadow table =>
        simp only [Stmt.modifies, beq_eq_false_iff_ne, ne_eq] at h
        simp only [Tables.apply] at hdb
        split at hdb
        · simp only [Option.some.injEq] at hdb
          subst hdb
          simp [Tables.put, Ne.symm h]
        · simp at hdb
      | truncate table =>
        simp only [Stmt.modifies, beq_eq_false_iff_ne, ne_eq] at h
        simp only [Tables.apply] at hdb
        split at hdb
        · simp only [Option.some.injEq] at hdb
          subst hdb
          simp [Tables.put, Ne.symm h]
        · simp at hdb
      | insert table rows =>
        simp only [Stmt.modifies, beq_eq_false_iff_ne, ne_eq] at h
        simp only [Tables.apply] at hdb
        split at hdb
        · simp only [Option.some.injEq] at hdb
          subst hdb
          simp [Tables.put, Ne.symm h]
        · simp at hdb
      | dropRename table shadow =>
        simp only [Stmt.modifies, Bool.or_eq_false_iff, beq_eq_false_iff_ne, ne_eq] at h
        simp only [Tables.apply] at hdb
        split at hdb
        · simp at hdb
        · split at hdb
          · simp at hdb
          · simp only [Option.some.injEq] at hdb
            subst hdb
            simp [Tables.put, Ne.symm h.1, Ne.symm h.2]
      | drop table =>
        simp only [Stmt.modifies, beq_eq_false_iff_ne, ne_eq] at h
        simp only [Tables.apply] at hdb
        split at hdb
        · simp only [Option.some.injEq] at hdb
          subst hdb
          simp [Tables.put, Ne.symm h]
        · simp at hdb

theorem finish_shape (table tgt : String) (args : List Record) (c : Conn) :
    ∃ (bs : List (List Record)) (tail : List Stmt),
      (Parse.finish table tgt args c).conn.log = c.log ++ bs.map (Stmt.insert tgt) ++ tail ∧
        (Parse.finish table tgt args c).conn.fault = c.fault ∧
        ((tail = [] ∧ ∀ k, k ≠ tgt → (Parse.finish table tgt args c).conn.tables k = c.tables k) ∨
          (tail = [.dropRename table tgt] ∧ tgt ≠ table ∧
            ((Parse.finish table tgt args c).err = none ∨
              (Parse.finish table tgt args c).err = some (.pq (.dropRename table tgt))))) := by
  by_cases hpos : args.length > 0
  · have hl := Exec_log c (.insert tgt args)
    have hf := Exec_fault c (.insert tgt args)
    have ht : ∀ k, k ≠ tgt → (c.Exec (.insert tgt args)).2.tables k = c.tables k := fun k hk =>
      Exec_tables_other c _ k (by simp [Stmt.modifies, Ne.symm hk])
    cases hx : c.Exec (.insert tgt args) with
    | mk oe c1 =>
      rw [hx] at hl hf ht
      simp only at hl hf ht
      cases oe with
      | some err =>
        have hfin : Parse.finish table tgt args c = ⟨some err, c1⟩ := by
          simp [Parse.finish, hpos, hx]
        rw [hfin]
        exact ⟨[args], [], by simp [hl], hf, Or.inl ⟨rfl, ht⟩⟩
      | none =>
        by_cases htt : tgt = table
        · subst htt
          have hfin : Parse.finish tgt tgt args c = ⟨none, c1⟩ := by
            simp [Parse.finish, hpos, hx]
          rw [hfin]
          exact ⟨[args], [], by simp [hl], hf, Or.inl ⟨rfl, ht⟩⟩
        · have hl2 := Exec_log c1 (.dropRename table tgt)
          have hf2 := Exec_fault c1 (.dropRename table tgt)
          cases hy : c1.Exec (.dropRename table tgt) with
          | mk oe2 c2 =>
            rw [hy] at hl2 hf2
            simp only at hl2 hf2
            cases oe2 with
            | some err =>
              obtain ⟨he, _⟩ := Exec_err _ _ _ _ hy
              have hfin : Parse.finish table tgt args c = ⟨some err, c2⟩ := by
                simp [Parse.finish, hpos, hx, htt, hy]
              rw [hfin]
              exact ⟨[args], [.dropRename table tgt], by simp [hl2, hl], by simp [hf2, hf],
                Or.inr ⟨rfl, htt, Or.inr (by simp [he])⟩⟩
            | none =>
              have hfin : Parse.finish table tgt args c = ⟨none, c2⟩ := by
                simp [Parse.finish, hpos, hx, htt, hy]
              rw [hfin]
              exact ⟨[args], [.dropRename table tgt], by simp [hl2, hl], by simp [hf2, hf],
                Or.inr ⟨rfl, htt, Or.inl rfl⟩⟩
  · have hfin : Parse.finish table tgt args c = ⟨none, c⟩ := by
      simp [Parse.finish, hpos]
    rw [hfin]
    exact ⟨[], [], by simp, rfl, Or.inl ⟨rfl, fun _ _ => rfl⟩⟩

theorem load_shape (table tgt elementName : String) (r : Struct) (toks : List Token) (c : Conn) :
    ∃ (bs : List (List Record)) (tail : List Stmt),
      (Parse.load table tgt elementName r toks c).conn.log
          = c.log ++ bs.map (Stmt.insert tgt) ++ tail ∧
        (Parse.load table tgt elementName r toks c).conn.fault = c.fault ∧
        ((tail = [] ∧ ∀ k, k ≠ tgt →
            (Parse.load table tgt elementName r toks c).conn.tables k = c.tables k) ∨
          (tail = [.dropRename table tgt] ∧ tgt ≠ table ∧
            ((Parse.load table tgt elementName r toks c).err = none ∨
              (Parse.load table tgt elementName r toks c).err
                = some (.pq (.dropRename table tgt))))) := by
  obtain ⟨bs, h1, h2, h3⟩ := loop_shape elementName tgt (r.map fun fv => ToLower fv.1.name) toks r c
  cases hx : Parse.loop elementName tgt (r.map fun fv => ToLower fv.1.name) toks none r [] c with
  | ret err c1 =>
    rw [hx] at h1 h2 h3
    have hload : Parse.load table tgt elementName r toks c = ⟨some err, c1⟩ := by
      simp [Parse.load, hx]
    rw [hload]
    exact ⟨bs, [], by simpa [LoopExit.conn] using h1, h3, Or.inl ⟨rfl, h2⟩⟩
  | brk args c1 =>
    rw [hx] at h1 h2 h3
    simp only [LoopExit.conn] at h1 h2 h3
    have hload : Parse.load table tgt elementName r toks c = Parse.finish table tgt args c1 := by
      simp [Parse.load, hx]
    rw [hload]
    obtain ⟨bs2, tail, g1, g2, g3⟩ := finish_shape table tgt args c1
    refine ⟨bs ++ bs2, tail, by simp [g1, h1], by simp [g2, h3], ?_⟩
    rcases g3 with ⟨k1, k2⟩ | g3
    · exact Or.inl ⟨k1, fun k hk => by rw [k2 k hk, h2 k hk]⟩
    · exact Or.inr g3


/-! ## Parse as a whole -/

theorem insertsOf_append (a b : List Stmt) : insertsOf (a ++ b) = insertsOf a ++ insertsOf b := by
  simp [insertsOf, List.filterMap_append]

theorem insertsOf_map (tgt : String) (bs : List (List Record)) :
    insertsOf (bs.map (Stmt.insert tgt)) = bs.map fun b => (tgt, b) := by
  induction bs with
  | nil => rfl
  | cons b bs ih =>
    simp only [insertsOf, List.map_cons, List.filterMap_cons] at ih ⊢
    rw [ih]

theorem Parse_small (sys : Sys) (table elementName : String) (r : Struct)
    (hopen : sys.openErr = none) (hstat : sys.statErr = none) (hsql : sys.sqlOpenErr = none)
    (hsize : sys.size ≤ 20388921) :
    Parse sys table elementName r
      = Parse.body table table elementName r sys.toks ⟨sys.tables, [], sys.fault⟩ := by
  unfold Parse
  simp only [hopen, hstat, hsql]
  rw [if_neg (by omega)]

theorem Parse_large_err (sys : Sys) (table elementName : String) (r : Struct)
    (hopen : sys.openErr = none) (hstat : sys.statErr = none) (hsql : sys.sqlOpenErr = none)
    (hsize : sys.size > 20388921) (err : GoError) (c1 : Conn)
    (hx : (⟨sys.tables, [], sys.fault⟩ : Conn).Exec (.createLike ("temp_" ++ table) table)
      = (some err, c1)) :
    Parse sys table elementName r = ⟨some err, c1⟩ := by
  unfold Parse
  simp only [hopen, hstat, hsql]
  rw [if_pos hsize]
  simp only [hx]

theorem Parse_large_ok (sys : Sys) (table elementName : String) (r : Struct)
    (hopen : sys.openErr = none) (hstat : sys.statErr = none) (hsql : sys.sqlOpenErr = none)
    (hsize : sys.size > 20388921) (c1 : Conn)
    (hx : (⟨sys.tables, [], sys.fault⟩ : Conn).Exec (.createLike ("temp_" ++ table) table)
      = (none, c1)) :
    Parse sys table elementName r
      = ⟨(Parse.load table ("temp_" ++ table) elementName r sys.toks c1).err,
          ((Parse.load table ("temp_" ++ table) elementName r sys.toks c1).conn.Exec
            (.drop ("temp_" ++ table))).2⟩ := by
  unfold Parse
  simp only [hopen, hstat, hsql]
  rw [if_pos hsize]
  simp only [hx, Parse.body, if_neg (temp_ne table)]

theorem body_same_err (table elementName : String) (r : Struct) (toks : List Token) (c : Conn)
    (err : GoError) (c1 : Conn) (hx : c.Exec (.truncate table) = (some err, c1)) :
    Parse.body table table elementName r toks c = ⟨some err, c1⟩ := by
  simp only [Parse.body, if_true, hx]

theorem body_same_ok (table elementName : String) (r : Struct) (toks : List Token) (c : Conn)
    (c1 : Conn) (hx : c.Exec (.truncate table) = (none, c1)) :
    Parse.body table table elementName r toks c
      = Parse.load table table elementName r toks c1 := by
  simp only [Parse.body, if_true, hx]

/-- C9.  For every file size and target table, once the file and the connection are open,
`Parse` picks the write target by the size threshold alone.  Above 20388921 bytes its first
statement creates the shadow table `temp_<table>`, no `TRUNCATE` is sent, and every bulk insert
goes to `temp_<table>`.  Up to and including 20388921 bytes no table is created, the first
statement is the one and only `TRUNCATE` of `table`, and every bulk insert goes to `table`. -/
theorem Parse_write_target (sys : Sys) (table elementName : String) (r : Struct)
    (hopen : sys.openErr = none) (hstat : sys.statErr = none) (hsql : sys.sqlOpenErr = none) :
    (sys.size > 20388921 →
      ∃ rest, (Parse sys table elementName r).conn.log
          = .createLike ("temp_" ++ table) table :: rest ∧
        (∀ t, Stmt.truncate t ∉ rest) ∧ (∀ a b, Stmt.createLike a b ∉ rest) ∧
        ∀ p ∈ insertsOf (Parse sys table elementName r).conn.log, p.1 = "temp_" ++ table) ∧
    (sys.size ≤ 20388921 →
      ∃ rest, (Parse sys table elementName r).conn.log = .truncate table :: rest ∧
        (∀ t, Stmt.truncate t ∉ rest) ∧ (∀ a b, Stmt.createLike a b ∉ rest) ∧
        (∀ a b, Stmt.createLike a b ∉ (Parse sys table elementName r).conn.log) ∧
        ∀ p ∈ insertsOf (Parse sys table elementName r).conn.log, p.1 = table) := by
  refine ⟨fun hsize => ?_, fun hsize => ?_⟩
  · have hl := Exec_log ⟨sys.tables, [], sys.fault⟩ (.createLike ("temp_" ++ table) table)
    cases hx : (⟨sys.tables, [], sys.fault⟩ : Conn).Exec
        (.createLike ("temp_" ++ table) table) with
    | mk oe c1 =>
      rw [hx] at hl
      simp only [List.nil_append] at hl
      cases oe with
      | some err =>
        rw [Parse_large_err sys table elementName r hopen hstat hsql hsize err c1 hx]
        refine ⟨[], hl, by simp, by simp, ?_⟩
        simp [hl, insertsOf]
      | none =>
        rw [Parse_large_ok sys table elementName r hopen hstat hsql hsize c1 hx]
        obtain ⟨bs, tail, g1, _, g3⟩ :=
          load_shape table ("temp_" ++ table) elementName r sys.toks c1
        simp only [Exec_log, g1, hl]
        refine ⟨bs.map (Stmt.insert ("temp_" ++ table)) ++ tail ++ [.drop ("temp_" ++ table)],
          by simp, ?_, ?_, ?_⟩
        · intro t ht
          rcases g3 with ⟨k, _⟩ | ⟨k, _⟩ <;> simp [k] at ht
        · intro a b ht
          rcases g3 with ⟨k, _⟩ | ⟨k, _⟩ <;> simp [k] at ht
        · intro p hp
          simp only [insertsOf_append, insertsOf_map, List.mem_append, List.mem_map] at hp
          rcases g3 with ⟨k, _⟩ | ⟨k, _⟩
          · subst k
            rcases hp with ((hp | ⟨b, _, rfl⟩) | hp) | hp
            · simp [insertsOf] at hp
            · rfl
            · simp [insertsOf] at hp
            · simp [insertsOf] at hp
          · subst k
            rcases hp with ((hp | ⟨b, _, rfl⟩) | hp) | hp
            · simp [insertsOf] at hp
            · rfl
            · simp [insertsOf] at hp
            · simp [insertsOf] at hp
  · rw [Parse_small sys table elementName r hopen hstat hsql hsize]
    have hl := Exec_log ⟨sys.tables, [], sys.fault⟩ (.truncate table)
    cases hx : (⟨sys.tables, [], sys.fault⟩ : Conn).Exec (.truncate table) with
    | mk oe c1 =>
      rw [hx] at hl
      simp only [List.nil_append] at hl
      cases oe with
      | some err =>
        rw [body_same_err table elementName r sys.toks _ err c1 hx]
        refine ⟨[], hl, by simp, by simp, by simp [hl], ?_⟩
        simp [hl, insertsOf]
      | none =>
        rw [body_same_ok table elementName r sys.toks _ c1 hx]
        obtain ⟨bs, tail, g1, _, g3⟩ := load_shape table table elementName r sys.toks c1
        have ht : tail = [] := by
          rcases g3 with ⟨k, _⟩ | ⟨_, k, _⟩
          · exact k
          · exact absurd rfl k
        subst ht
        simp only [g1, hl, List.append_nil]
        refine ⟨bs.map (Stmt.insert table), by simp, by simp, by simp, by simp, ?_⟩
        intro p hp
        simp only [insertsOf_append, insertsOf_map, List.mem_append, List.mem_map] at hp
        rcases hp with hp | ⟨b, _, rfl⟩
        · simp [insertsOf] at hp
        · rfl


theorem chunksOf_nil {α : Type} (n : Nat) (hn : 0 < n) : chunksOf n ([] : List α) = [] := by
  have : (n - 1) / n = 0 := Nat.div_eq_of_lt (by omega)
  simp [chunksOf, this]

theorem chunksOf_short {α : Type} (n : Nat) (l : List α) (h0 : l ≠ []) (h1 : l.length ≤ n) :
    chunksOf n l = [l] := by
  have hpos : 0 < l.length := List.length_pos.mpr h0
  have : (l.length + n - 1) / n = 1 := by
    apply Nat.div_eq_of_lt_le <;> omega
  simp [chunksOf, this, List.range_succ, List.take_of_length_le h1]

theorem chunksOf_cons {α : Type} (n : Nat) (hn : 0 < n) (b l : List α) (hb : b.length = n) :
    chunksOf n (b ++ l) = b :: chunksOf n l := by
  have h1 : ((b ++ l).length + n - 1) / n = (l.length + n - 1) / n + 1 := by
    rw [List.length_append, hb, ← Nat.add_div_right _ hn]
    congr 1
    omega
  unfold chunksOf
  rw [h1, List.range_succ_eq_map, List.map_cons, List.map_map]
  congr 1
  · simp [← hb]
  · apply List.map_congr_left
    intro i _
    simp only [Function.comp, Nat.succ_eq_add_one, Nat.mul_add, Nat.mul_one]
    rw [Nat.add_comm, ← hb, List.drop_append]
    
theorem chunksOf_flushed {α : Type} (n : Nat) (hn : 0 < n) (bs : List (List α)) (last : List α)
    (hbs : ∀ b ∈ bs, b.length = n) (hlast : last.length < n) :
    chunksOf n (bs.flatten ++ last) = bs ++ (if last.isEmpty then [] else [last]) := by
  induction bs with
  | nil =>
    by_cases h : last = []
    · simp [h, chunksOf_nil n hn]
    · simp [h, chunksOf_short n last h (by omega)]
  | cons b bs ih =>
    rw [List.flatten_cons, List.append_assoc, chunksOf_cons n hn b _ (hbs b (by simp)),
      ih (fun x hx => hbs x (by simp [hx]))]
    rfl

theorem chunksOf_get_length {α : Type} (rows : List α) (i : Nat)
    (h : i < (chunksOf 5000 rows).length) :
    ((chunksOf 5000 rows).get ⟨i, h⟩).length
      = if i < rows.length / 5000 then 5000 else rows.length % 5000 := by
  have hi : i < (rows.length + 5000 - 1) / 5000 := by simpa [chunksOf] using h
  simp only [chunksOf, List.get_eq_getElem, List.getElem_map, List.getElem_range,
    List.length_take, List.length_drop]
  split <;> omega


theorem finish_inserts (table tgt : String) (args : List Record) (c : Conn) :
    insertsOf (Parse.finish table tgt args c).conn.log
      = insertsOf c.log ++ (if args.isEmpty then [] else [(tgt, args)]) := by
  by_cases hpos : args.length > 0
  · have hne : args.isEmpty = false := by
      cases args with
      | nil => simp at hpos
      | cons a l => rfl
    have hl := Exec_log c (.insert tgt args)
    cases hx : c.Exec (.insert tgt args) with
    | mk oe c1 =>
      rw [hx] at hl
      simp only at hl
      cases oe with
      | some err =>
        have hfin : Parse.finish table tgt args c = ⟨some err, c1⟩ := by
          simp [Parse.finish, hpos, hx]
        rw [hfin]
        simp [hl, insertsOf_append, hne, insertsOf]
      | none =>
        by_cases htt : tgt = table
        · subst htt
          have hfin : Parse.finish tgt tgt args c = ⟨none, c1⟩ := by
            simp [Parse.finish, hpos, hx]
          rw [hfin]
          simp [hl, insertsOf_append, hne, insertsOf]
        · have hl2 := Exec_log c1 (.dropRename table tgt)
          cases hy : c1.Exec (.dropRename table tgt) with
          | mk oe2 c2 =>
            rw [hy] at hl2
            simp only at hl2
            have hfin : (Parse.finish table tgt args c).conn = c2 := by
              cases oe2 <;> simp [Parse.finish, hpos, hx, htt, hy]
            rw [hfin]
            simp [hl2, hl, insertsOf_append, hne, insertsOf]
  · have hfin : Parse.finish table tgt args c = ⟨none, c⟩ := by
      simp [Parse.finish, hpos]
    have hnil : args = [] := by
      cases args with
      | nil => rfl
      | cons a l => simp at hpos
    rw [hfin, hnil]
    simp

theorem load_inserts (table tgt elementName : String) (r : Struct) (toks : List Token) (c : Conn)
    (herr : (Parse.load table tgt elementName r toks c).err = none) :
    insertsOf (Parse.load table tgt elementName r toks c).conn.log
        = insertsOf c.log ++
          (chunksOf 5000 (decodedRows elementName (columnsOf r) toks none r).1).map
            (fun b => (tgt, b)) ∧
      (decodedRows elementName (columnsOf r) toks none r).2 = none := by
  obtain ⟨h1, _⟩ := loop_spec elementName tgt (columnsOf r) toks none r [] c (by simp)
  cases hx : Parse.loop elementName tgt (columnsOf r) toks none r [] c with
  | ret err c1 =>
    have hload : Parse.load table tgt elementName r toks c = ⟨some err, c1⟩ := by
      simp only [columnsOf] at hx
      simp [Parse.load, hx]
    rw [hload] at herr
    simp at herr
  | brk args c1 =>
    have hload : Parse.load table tgt elementName r toks c = Parse.finish table tgt args c1 := by
      simp only [columnsOf] at hx
      simp [Parse.load, hx]
    obtain ⟨bs, ⟨g1, _, g3, _⟩, g5, g6, g7⟩ := h1 args c1 hx
    rw [List.nil_append] at g6
    refine ⟨?_, g5⟩
    rw [hload, finish_inserts, g1, insertsOf_append, insertsOf_map, ← g6,
      chunksOf_flushed 5000 (by omega) bs args g3 g7, List.append_assoc, List.map_append]
    congr 2
    cases args <;> simp

theorem chunksOf_flatten {α : Type} (n : Nat) (hn : 0 < n) (l : List α) :
    (chunksOf n l).flatten = l := by
  generalize hlen : l.length = k
  induction k using Nat.strong_induction_on generalizing l with
  | _ k ih =>
    by_cases hk : l.length ≤ n
    · by_cases h0 : l = []
      · subst h0
        simp [chunksOf_nil n hn]
      · simp [chunksOf_short n l h0 hk]
    · have hsplit : l = l.take n ++ l.drop n := (List.take_append_drop n l).symm
      have htake : (l.take n).length = n := by
        simp only [List.length_take]
        omega
      rw [hsplit, chunksOf_cons n hn _ _ htake, List.flatten_cons,
        ih (l.drop n).length (by simp only [List.length_drop]; omega) (l.drop n) rfl,
        List.take_append_drop]

theorem chunksOf_ne_nil {α : Type} (rows : List α) (b : List α) (hb : b ∈ chunksOf 5000 rows) :
    b ≠ [] := by
  obtain ⟨⟨i, hi⟩, rfl⟩ := List.mem_iff_get.mp hb
  have h1 := chunksOf_get_length rows i hi
  have h2 : i < (rows.length + 5000 - 1) / 5000 := by simpa [chunksOf] using hi
  intro h0
  rw [h0] at h1
  simp only [List.length_nil] at h1
  split at h1 <;> omega

theorem Parse_started (sys : Sys) (table elementName : String) (r : Struct)
    (herr : (Parse sys table elementName r).err = none) :
    sys.openErr = none ∧ sys.statErr = none ∧ sys.sqlOpenErr = none := by
  unfold Parse at herr
  cases h1 : sys.openErr with
  | some e => simp [h1] at herr
  | none =>
    cases h2 : sys.statErr with
    | some e => simp [h1, h2] at herr
    | none =>
      cases h3 : sys.sqlOpenErr with
      | some e => simp [h1, h2, h3] at herr
      | none => exact ⟨rfl, rfl, rfl⟩

theorem Parse_inserts (sys : Sys) (table elementName : String) (r : Struct)
    (herr : (Parse sys table elementName r).err = none) :
    insertsOf (Parse sys table elementName r).conn.log
        = (chunksOf 5000 (decodedRows elementName (columnsOf r) sys.toks none r).1).map
            (fun b => (writeTarget sys.size table, b)) ∧
      (decodedRows elementName (columnsOf r) sys.toks none r).2 = none := by
  obtain ⟨hopen, hstat, hsql⟩ := Parse_started sys table elementName r herr
  by_cases hsize : sys.size > 20388921
  · have hw : writeTarget sys.size table = "temp_" ++ table := by
      simp [writeTarget, threshold, hsize]
    have hl := Exec_log ⟨sys.tables, [], sys.fault⟩ (.createLike ("temp_" ++ table) table)
    cases hx : (⟨sys.tables, [], sys.fault⟩ : Conn).Exec
        (.createLike ("temp_" ++ table) table) with
    | mk oe c1 =>
      rw [hx] at hl
      simp only [List.nil_append] at hl
      cases oe with
      | some err =>
        rw [Parse_large_err sys table elementName r hopen hstat hsql hsize err c1 hx] at herr
        simp at herr
      | none =>
        rw [Parse_large_ok sys table elementName r hopen hstat hsql hsize c1 hx] at herr ⊢
        obtain ⟨g1, g2⟩ := load_inserts table ("temp_" ++ table) elementName r sys.toks c1 herr
        refine ⟨?_, g2⟩
        simp only [Exec_log, insertsOf_append, g1, hl, hw]
        simp [insertsOf]
  · have hw : writeTarget sys.size table = table := by
      simp [writeTarget, threshold, hsize]
    have hsize1 : sys.size ≤ 20388921 := by omega
    rw [Parse_small sys table elementName r hopen hstat hsql hsize1] at herr ⊢
    have hl := Exec_log ⟨sys.tables, [], sys.fault⟩ (.truncate table)
    cases hx : (⟨sys.tables, [], sys.fault⟩ : Conn).Exec (.truncate table) with
    | mk oe c1 =>
      rw [hx] at hl
      simp only [List.nil_append] at hl
      cases oe with
      | some err =>
        rw [body_same_err table elementName r sys.toks _ err c1 hx] at herr
        simp at herr
      | none =>
        rw [body_same_ok table elementName r sys.toks _ c1 hx] at herr ⊢
        obtain ⟨g1, g2⟩ := load_inserts table table elementName r sys.toks c1 herr
        refine ⟨?_, g2⟩
        simp only [g1, hl, hw]
        simp [insertsOf]

/-- C4.  When `Parse` returns nil, its bulk inserts are exactly the decoded rows cut into
consecutive chunks of 5000, in document order, all sent to the write target: chunk `i` holds the
rows from position `5000 * i` on.  So there are `N / 5000` inserts of exactly 5000 rows, followed
by one insert of `N % 5000` rows when that is not zero (1, 2, 2 and 2 inserts for 5000, 5001,
9999 and 10000 rows); the batches concatenated give back the rows, and no insert is empty. -/
theorem Parse_batches (sys : Sys) (table elementName : String) (r : Struct)
    (herr : (Parse sys table elementName r).err = none) :
    insertsOf (Parse sys table elementName r).conn.log
        = (chunksOf 5000 (decodedRows elementName (columnsOf r) sys.toks none r).1).map
            (fun b => (writeTarget sys.size table, b)) ∧
      (chunksOf 5000 (decodedRows elementName (columnsOf r) sys.toks none r).1).flatten
        = (decodedRows elementName (columnsOf r) sys.toks none r).1 ∧
      (chunksOf 5000 (decodedRows elementName (columnsOf r) sys.toks none r).1).length
        = (decodedRows elementName (columnsOf r) sys.toks none r).1.length / 5000
          + (if (decodedRows elementName (columnsOf r) sys.toks none r).1.length % 5000 = 0
              then 0 else 1) ∧
      (∀ (i : Nat)
          (h : i < (chunksOf 5000 (decodedRows elementName (columnsOf r) sys.toks none r).1).length),
        ((chunksOf 5000 (decodedRows elementName (columnsOf r) sys.toks none r).1).get ⟨i, h⟩).length
          = if i < (decodedRows elementName (columnsOf r) sys.toks none r).1.length / 5000
            then 5000
            else (decodedRows elementName (columnsOf r) sys.toks none r).1.length % 5000) ∧
      (∀ b ∈ chunksOf 5000 (decodedRows elementName (columnsOf r) sys.toks none r).1, b ≠ []) ∧
      ((decodedRows elementName (columnsOf r) sys.toks none r).1.length = 5000 →
        (insertsOf (Parse sys table elementName r).conn.log).length = 1) ∧
      ((decodedRows elementName (columnsOf r) sys.toks none r).1.length = 5001 →
        (insertsOf (Parse sys table elementName r).conn.log).length = 2) ∧
      ((decodedRows elementName (columnsOf r) sys.toks none r).1.length = 9999 →
        (insertsOf (Parse sys table elementName r).conn.log).length = 2) ∧
      ((decodedRows elementName (columnsOf r) sys.toks none r).1.length = 10000 →
        (insertsOf (Parse sys table elementName r).conn.log).length = 2) := by
  have hins := (Parse_inserts sys table elementName r herr).1
  have hcount : (insertsOf (Parse sys table elementName r).conn.log).length
      = ((decodedRows elementName (columnsOf r) sys.toks none r).1.length + 5000 - 1) / 5000 := by
    rw [hins]
    simp [chunksOf]
  refine ⟨hins, chunksOf_flatten 5000 (by omega) _, ?_,
    fun i h => chunksOf_get_length _ i h, fun b hb => chunksOf_ne_nil _ b hb, ?_, ?_, ?_, ?_⟩
  · simp only [chunksOf, List.length_map, List.length_range]
    split <;> omega
  · intro h; rw [hcount, h]
  · intro h; rw [hcount, h]
  · intro h; rw [hcount, h]
  · intro h; rw [hcount, h]

/-! ## Flat element streams -/

theorem decodedRows_stream (elementName : String) (cols : List String) (elems : List Element) :
    ∀ r : Struct, decodedRows elementName cols (stream elems) none r
      = ((snapshots r ((targetsOf elementName elems).map Prod.snd)).map (makeArgument cols),
          firstError r ((targetsOf elementName elems).map Prod.snd)) := by
  induction elems with
  | nil => intro r; rfl
  | cons e rest ih =>
    intro r
    have hs : stream (e :: rest) = .StartElement e.1 e.2 :: .EndElement e.1 :: stream rest := rfl
    rw [hs]
    by_cases hn : e.1 = elementName
    · have ht : targetsOf elementName (e :: rest) = e :: targetsOf elementName rest := by
        simp [targetsOf, hn]
      rw [ht]
      cases hu : unmarshalAttrs r e.2 with
      | error err => simp [decodedRows, hn, hu, snapshots, firstError]
      | ok r1 => simp [decodedRows, hn, hu, snapshots, firstError, ih r1]
    · have ht : targetsOf elementName (e :: rest) = targetsOf elementName rest := by
        simp [targetsOf, hn]
      rw [ht]
      simp [decodedRows, hn, ih r]

theorem snapshots_length (l : List (List (String × String))) :
    ∀ r : Struct, firstError r l = none → (snapshots r l).length = l.length := by
  induction l with
  | nil => intro r _; rfl
  | cons a rest ih =>
    intro r h
    cases hu : unmarshalAttrs r a with
    | error err => simp [firstError, hu] at h
    | ok r1 =>
      simp only [firstError, hu] at h
      simp [snapshots, hu, ih r1 h]

theorem unmarshalAttr_fields (a : String × String) :
    ∀ (r r1 : Struct), unmarshalAttr r a = .ok r1 → r1.map Prod.fst = r.map Prod.fst := by
  intro r
  induction r with
  | nil =>
    intro r1 h
    simp only [unmarshalAttr, Except.ok.injEq] at h
    subst h
    rfl
  | cons fv rest ih =>
    intro r1 h
    obtain ⟨f, v⟩ := fv
    simp only [unmarshalAttr] at h
    split at h
    · split at h
      · simp at h
      · split at h
        · simp at h
        · rename_i rest1 hrest
          simp only [Except.ok.injEq] at h
          subst h
          simp [ih rest1 hrest]
    · split at h
      · simp at h
      · rename_i rest1 hrest
        simp only [Except.ok.injEq] at h
        subst h
        simp [ih rest1 hrest]

theorem unmarshalAttrs_fields (attr : List (String × String)) :
    ∀ (r r1 : Struct), unmarshalAttrs r attr = .ok r1 → r1.map Prod.fst = r.map Prod.fst := by
  induction attr with
  | nil =>
    intro r r1 h
    simp only [unmarshalAttrs, Except.ok.injEq] at h
    subst h
    rfl
  | cons a rest ih =>
    intro r r1 h
    simp only [unmarshalAttrs] at h
    split at h
    · simp at h
    · rename_i s1 hs1
      rw [ih s1 r1 h, unmarshalAttr_fields a r s1 hs1]

theorem snapshots_fields (l : List (List (String × String))) :
    ∀ (r s : Struct), s ∈ snapshots r l → s.map Prod.fst = r.map Prod.fst := by
  induction l with
  | nil => intro r s h; simp [snapshots] at h
  | cons a rest ih =>
    intro r s h
    cases hu : unmarshalAttrs r a with
    | error err => simp [snapshots, hu] at h
    | ok r1 =>
      simp only [snapshots, hu, List.mem_cons] at h
      have h1 := unmarshalAttrs_fields a r r1 hu
      rcases h with rfl | h
      · exact h1
      · rw [ih r1 s h, h1]

theorem set_get_self (m : Record) (k : String) (v : Value) : (m.set k v).get? k = some v := by
  induction m with
  | nil => simp [Record.set, Record.get?, List.lookup]
  | cons kv rest ih =>
    obtain ⟨k1, v1⟩ := kv
    by_cases h : k1 = k
    · simp [Record.set, h, Record.get?, List.lookup]
    · have hb : (k == k1) = false := by simpa using Ne.symm h
      simp only [Record.set, h, if_false, Record.get?, List.lookup, hb]
      exact ih

theorem set_get_other (m : Record) (k k2 : String) (v : Value) (h2 : k2 ≠ k) :
    (m.set k v).get? k2 = m.get? k2 := by
  induction m with
  | nil =>
    have hb : (k2 == k) = false := by simpa using h2
    simp [Record.set, Record.get?, List.lookup, hb]
  | cons kv rest ih =>
    obtain ⟨k1, v1⟩ := kv
    by_cases h : k1 = k
    · subst h
      have hb : (k2 == k1) = false := by simpa using h2
      simp [Record.set, Record.get?, List.lookup, hb]
    · simp only [Record.set, h, if_false, Record.get?, List.lookup]
      split
      · rfl
      · exact ih

theorem set_isSome (m : Record) (k k2 : String) (v : Value) (h : (m.get? k2).isSome = true) :
    ((m.set k v).get? k2).isSome = true := by
  by_cases h2 : k2 = k
  · subst h2
    simp [set_get_self]
  · rw [set_get_other m k k2 v h2]
    exact h

theorem foldl_set_keeps (l : List (String × Value)) :
    ∀ (m : Record) (k : String), (m.get? k).isSome = true →
      ((l.foldl (fun m kv => m.set kv.1 kv.2) m).get? k).isSome = true := by
  induction l with
  | nil => intro m k h; exact h
  | cons kv rest ih =>
    intro m k h
    exact ih _ k (set_isSome m kv.1 k kv.2 h)

theorem foldl_set_covers (l : List (String × Value)) :
    ∀ (m : Record) (kv : String × Value), kv ∈ l →
      ((l.foldl (fun m kv => m.set kv.1 kv.2) m).get? kv.1).isSome = true := by
  induction l with
  | nil => intro m kv h; simp at h
  | cons kv1 rest ih =>
    intro m kv h
    rcases List.mem_cons.mp h with rfl | h
    · exact foldl_set_keeps rest _ _ (by simp [set_get_self])
    · exact ih _ kv h

theorem makeArgument_covers (r s : Struct) (hs : s.map Prod.fst = r.map Prod.fst)
    (fv : Field × Value) (hfv : fv ∈ r) :
    ((makeArgument (columnsOf r) s).get? (ToLower fv.1.name)).isSome = true := by
  have hlen : s.length = r.length := by
    have := congrArg List.length hs
    simpa using this
  obtain ⟨i, hi, hget⟩ := List.getElem_of_mem hfv
  have hi2 : i < s.length := by omega
  have hi3 : i < (s.map Prod.snd).length := by simpa using hi2
  have hmem : (ToLower fv.1.name, (s.map Prod.snd).get ⟨i, hi3⟩)
      ∈ (columnsOf r).zip (s.map Prod.snd) := by
    rw [List.mem_iff_getElem]
    refine ⟨i, by simp [columnsOf]; omega, ?_⟩
    simp [columnsOf, hget]
  exact foldl_set_covers _ [] _ hmem


theorem loop_forward (elementName tgt : String) (cols : List String) (toks : List Token)
    (r : Struct) (c : Conn) (hf : ∀ n, c.fault n = false) (ht : (c.tables tgt).isSome = true) :
    ∃ (bs : List (List Record)) (args1 : List Record) (c1 : Conn),
      Flushed tgt c c1 bs ∧
        bs.flatten ++ args1 = (decodedRows elementName cols toks none r).1 ∧
        args1.length < 5000 ∧
        ((decodedRows elementName cols toks none r).2 = none →
          Parse.loop elementName tgt cols toks none r [] c = .brk args1 c1) ∧
        (∀ err, (decodedRows elementName cols toks none r).2 = some err →
          Parse.loop elementName tgt cols toks none r [] c = .ret err c1) := by
  obtain ⟨h1, h2⟩ := loop_spec elementName tgt cols toks none r [] c (by simp)
  cases hx : Parse.loop elementName tgt cols toks none r [] c with
  | brk a c1 =>
    obtain ⟨bs, g1, g2, g3, g4⟩ := h1 a c1 hx
    refine ⟨bs, a, c1, g1, by simpa using g3, g4, fun _ => rfl, fun err he => ?_⟩
    rw [g2] at he
    simp at he
  | ret err c1 =>
    obtain ⟨bs, g | g⟩ := h2 err c1 hx
    · obtain ⟨g1, g2, args1, g3, g4⟩ := g
      refine ⟨bs, args1, c1, g1, by simpa using g3, g4, fun hn => ?_, fun err1 he => ?_⟩
      · rw [g2] at hn
        simp at hn
      · rw [g2] at he
        simp only [Option.some.injEq] at he
        rw [he]
    · obtain ⟨c0, b, _, _, _, _, _, _, g7, _⟩ := g
      rcases g7 with g7 | g7
      · rw [hf] at g7
        simp at g7
      · rw [g7] at ht
        simp at ht

theorem flatten_length (n : Nat) (bs : List (List Record)) (h : ∀ b ∈ bs, b.length = n) :
    bs.flatten.length = n * bs.length := by
  induction bs with
  | nil => simp
  | cons b bs ih =>
    simp only [List.flatten_cons, List.length_append, List.length_cons,
      h b (by simp), ih (fun x hx => h x (by simp [hx]))]
    rw [Nat.mul_succ]
    omega

theorem flushed_take (bs : List (List Record)) (args1 rows : List Record)
    (h1 : ∀ b ∈ bs, b.length = 5000) (h2 : bs.flatten ++ args1 = rows)
    (h3 : args1.length < 5000) :
    rows.take (5000 * (rows.length / 5000)) = bs.flatten := by
  have hl := flatten_length 5000 bs h1
  have hr : rows.length = 5000 * bs.length + args1.length := by
    rw [← h2, List.length_append, hl]
  have hd : rows.length / 5000 = bs.length := by omega
  rw [hd, ← hl, ← h2, List.take_left']
  rfl

theorem finish_err (table tgt : String) (args : List Record) (c : Conn) (e : GoError)
    (h : (Parse.finish table tgt args c).err = some e) : e.isDecode = false := by
  unfold Parse.finish at h
  split at h
  · split at h
    · rename_i err c1 hx
      obtain ⟨he, _⟩ := Exec_err _ _ _ _ hx
      simp only [Option.some.injEq] at h
      subst h
      subst he
      rfl
    · split at h
      · split at h
        · rename_i err c2 hy
          obtain ⟨he, _⟩ := Exec_err _ _ _ _ hy
          simp only [Option.some.injEq] at h
          subst h
          subst he
          rfl
        · simp at h
      · simp at h
  · simp at h

theorem apply_truncate (db db1 : Tables) (t : String)
    (h : db.apply (.truncate t) = some db1) : db1 = db.put t (some []) := by
  simp only [Tables.apply] at h
  split at h
  · simpa using h.symm
  · simp at h

theorem load_decode_failure (table tgt elementName : String) (r : Struct) (toks : List Token)
    (c : Conn) (e : GoError) (herr : (Parse.load table tgt elementName r toks c).err = some e)
    (hdec : e.isDecode = true) :
    (decodedRows elementName (columnsOf r) toks none r).2 = some e ∧
      (Parse.load table tgt elementName r toks c).conn.tables tgt
        = (c.tables tgt).map fun old => old ++
            (decodedRows elementName (columnsOf r) toks none r).1.take
              (5000 * ((decodedRows elementName (columnsOf r) toks none r).1.length / 5000)) := by
  obtain ⟨_, h2⟩ := loop_spec elementName tgt (columnsOf r) toks none r [] c (by simp)
  cases hx : Parse.loop elementName tgt (columnsOf r) toks none r [] c with
  | brk args c1 =>
    have hload : Parse.load table tgt elementName r toks c = Parse.finish table tgt args c1 := by
      simp only [columnsOf] at hx
      simp [Parse.load, hx]
    rw [hload] at herr
    rw [finish_err table tgt args c1 e herr] at hdec
    simp at hdec
  | ret err c1 =>
    have hload : Parse.load table tgt elementName r toks c = ⟨some err, c1⟩ := by
      simp only [columnsOf] at hx
      simp [Parse.load, hx]
    rw [hload] at herr ⊢
    simp only [Option.some.injEq] at herr
    subst herr
    obtain ⟨bs, g | g⟩ := h2 err c1 hx
    · obtain ⟨⟨_, _, k3, k4, _, _⟩, g2, args1, g3, g4⟩ := g
      rw [List.nil_append] at g3
      refine ⟨g2, ?_⟩
      rw [flushed_take bs args1 _ k3 g3 g4]
      exact k4
    · obtain ⟨c0, b, _, _, he, _⟩ := g
      rw [he] at hdec
      simp [GoError.isDecode] at hdec

theorem small_decode_failure (sys : Sys) (table elementName : String) (r : Struct) (e : GoError)
    (hopen : sys.openErr = none) (hstat : sys.statErr = none) (hsql : sys.sqlOpenErr = none)
    (hsize : sys.size ≤ 20388921) (herr : (Parse sys table elementName r).err = some e)
    (hdec : e.isDecode = true) :
    (decodedRows elementName (columnsOf r) sys.toks none r).2 = some e ∧
      (Parse sys table elementName r).conn.tables table
        = some ((decodedRows elementName (columnsOf r) sys.toks none r).1.take
            (5000 * ((decodedRows elementName (columnsOf r) sys.toks none r).1.length / 5000))) := by
  rw [Parse_small sys table elementName r hopen hstat hsql hsize] at herr ⊢
  cases hx : (⟨sys.tables, [], sys.fault⟩ : Conn).Exec (.truncate table) with
  | mk oe c1 =>
    cases oe with
    | some err =>
      rw [body_same_err table elementName r sys.toks _ err c1 hx] at herr
      obtain ⟨he, _⟩ := Exec_err _ _ _ _ hx
      simp only [Option.some.injEq] at herr
      rw [← herr, he] at hdec
      simp [GoError.isDecode] at hdec
    | none =>
      rw [body_same_ok table elementName r sys.toks _ c1 hx] at herr ⊢
      obtain ⟨_, hap, _, _⟩ := Exec_ok _ _ _ hx
      have hdb := apply_truncate _ _ _ hap
      obtain ⟨g1, g2⟩ := load_decode_failure table table elementName r sys.toks c1 e herr hdec
      refine ⟨g1, ?_⟩
      rw [g2, hdb]
      simp [Tables.put]


theorem modifies_temp (table : String) (rows : List Record) :
    (Stmt.createLike ("temp_" ++ table) table).modifies table = false ∧
      (Stmt.insert ("temp_" ++ table) rows).modifies table = false ∧
      (Stmt.drop ("temp_" ++ table)).modifies table = false := by
  simp [Stmt.modifies, temp_ne table]

theorem large_failure_trace (sys : Sys) (table elementName : String) (r : Struct) (e : GoError)
    (hopen : sys.openErr = none) (hstat : sys.statErr = none) (hsql : sys.sqlOpenErr = none)
    (hsize : sys.size > 20388921) (herr : (Parse sys table elementName r).err = some e)
    (hkind : e.isDecode = true ∨ e.isInsert = true) :
    (∀ s ∈ (Parse sys table elementName r).conn.log, s.modifies table = false) ∧
      (Parse sys table elementName r).conn.log.getLast? = some (.drop ("temp_" ++ table)) ∧
      (Parse sys table elementName r).conn.tables table = sys.tables table := by
  have hl := Exec_log ⟨sys.tables, [], sys.fault⟩ (.createLike ("temp_" ++ table) table)
  have ht := Exec_tables_other ⟨sys.tables, [], sys.fault⟩
    (.createLike ("temp_" ++ table) table) table (modifies_temp table []).1
  cases hx : (⟨sys.tables, [], sys.fault⟩ : Conn).Exec
      (.createLike ("temp_" ++ table) table) with
  | mk oe c1 =>
    rw [hx] at hl ht
    simp only [List.nil_append] at hl ht
    cases oe with
    | some err =>
      rw [Parse_large_err sys table elementName r hopen hstat hsql hsize err c1 hx] at herr
      obtain ⟨he, _⟩ := Exec_err _ _ _ _ hx
      simp only [Option.some.injEq] at herr
      rw [← herr, he] at hkind
      simp [GoError.isDecode, GoError.isInsert] at hkind
    | none =>
      rw [Parse_large_ok sys table elementName r hopen hstat hsql hsize c1 hx] at herr ⊢
      simp only at herr
      obtain ⟨bs, tail, g1, _, g3⟩ :=
        load_shape table ("temp_" ++ table) elementName r sys.toks c1
      rcases g3 with ⟨k1, k2⟩ | ⟨_, _, k | k⟩
      · subst k1
        refine ⟨?_, ?_, ?_⟩
        · intro s hs
          simp only [Exec_log, g1, hl, List.append_nil, List.mem_append, List.mem_cons,
            List.mem_map, List.mem_singleton, List.not_mem_nil, or_false] at hs
          rcases hs with (rfl | ⟨b, _, rfl⟩) | rfl
          · exact (modifies_temp table []).1
          · exact (modifies_temp table b).2.1
          · exact (modifies_temp table []).2.2
        · simp only [Exec_log]
          exact List.getLast?_concat _
        · rw [Exec_tables_other _ _ table (modifies_temp table []).2.2,
            k2 table (Ne.symm (temp_ne table)), ht]
      · rw [k] at herr
        simp at herr
      · rw [k] at herr
        simp only [Option.some.injEq] at herr
        rw [← herr] at hkind
        simp [GoError.isDecode, GoError.isInsert] at hkind

theorem large_multiple_no_swap (sys : Sys) (table elementName : String) (r : Struct)
    (old : List Record)
    (hopen : sys.openErr = none) (hstat : sys.statErr = none) (hsql : sys.sqlOpenErr = none)
    (hsize : sys.size > 20388921) (hf : ∀ n, sys.fault n = false)
    (ht : sys.tables table = some old) (hs : sys.tables ("temp_" ++ table) = none)
    (hdec : (decodedRows elementName (columnsOf r) sys.toks none r).2 = none)
    (hmod : (decodedRows elementName (columnsOf r) sys.toks none r).1.length % 5000 = 0) :
    (Parse sys table elementName r).err = none ∧
      (Parse sys table elementName r).conn.log
        = .createLike ("temp_" ++ table) table ::
            ((chunksOf 5000 (decodedRows elementName (columnsOf r) sys.toks none r).1).map
              (Stmt.insert ("temp_" ++ table)) ++ [.drop ("temp_" ++ table)]) ∧
      (Parse sys table elementName r).conn.tables table = some old ∧
      (Parse sys table elementName r).conn.tables ("temp_" ++ table) = none := by
  have hx : (⟨sys.tables, [], sys.fault⟩ : Conn).Exec (.createLike ("temp_" ++ table) table)
      = (none, ⟨sys.tables.put ("temp_" ++ table) (some []),
          [.createLike ("temp_" ++ table) table], sys.fault⟩) := by
    simp [Conn.Exec, hf, Tables.apply, ht, hs]
  rw [Parse_large_ok sys table elementName r hopen hstat hsql hsize _ hx]
  obtain ⟨bs, args1, c2, ⟨g1, g2, g3, g4, g5, _⟩, k2, k3, k4, _⟩ :=
    loop_forward elementName ("temp_" ++ table) (columnsOf r) sys.toks r
      ⟨sys.tables.put ("temp_" ++ table) (some []), [.createLike ("temp_" ++ table) table],
        sys.fault⟩ hf (by simp [Tables.put])
  have hlen := flatten_length 5000 bs g3
  have hnil : args1 = [] := by
    have h1 := congrArg List.length k2
    rw [List.length_append, hlen] at h1
    apply List.eq_nil_of_length_eq_zero
    omega
  subst hnil
  have hbs : chunksOf 5000 (decodedRows elementName (columnsOf r) sys.toks none r).1 = bs := by
    rw [← k2, chunksOf_flushed 5000 (by omega) bs [] g3 (by simp)]
    simp
  have hload : Parse.load table ("temp_" ++ table) elementName r sys.toks
      ⟨sys.tables.put ("temp_" ++ table) (some []), [.createLike ("temp_" ++ table) table],
        sys.fault⟩ = ⟨none, c2⟩ := by
    have := k4 hdec
    simp only [columnsOf] at this
    simp [Parse.load, this, Parse.finish]
  rw [hload, hbs]
  simp only [Tables.put, if_true, Option.map_some] at g4
  have hdrop : c2.Exec (.drop ("temp_" ++ table))
      = (none, ⟨c2.tables.put ("temp_" ++ table) none, c2.log ++ [.drop ("temp_" ++ table)],
          c2.fault⟩) := by
    simp [Conn.Exec, g2, hf, Tables.apply, g4]
  rw [hdrop]
  refine ⟨rfl, by simp [g1], ?_, by simp [Tables.put]⟩
  simp only [Tables.put, if_neg (Ne.symm (temp_ne table))]
  rw [g5 table (Ne.symm (temp_ne table))]
  simp [Tables.put, Ne.symm (temp_ne table), ht]

theorem small_decode_forward (sys : Sys) (table elementName : String) (r : Struct)
    (old : List Record) (err : GoError)
    (hopen : sys.openErr = none) (hstat : sys.statErr = none) (hsql : sys.sqlOpenErr = none)
    (hsize : sys.size ≤ 20388921) (hf : ∀ n, sys.fault n = false)
    (ht : sys.tables table = some old)
    (hdec : (decodedRows elementName (columnsOf r) sys.toks none r).2 = some err) :
    (Parse sys table elementName r).err = some err := by
  have hx : (⟨sys.tables, [], sys.fault⟩ : Conn).Exec (.truncate table)
      = (none, ⟨sys.tables.put table (some []), [.truncate table], sys.fault⟩) := by
    simp [Conn.Exec, hf, Tables.apply, ht]
  rw [Parse_small sys table elementName r hopen hstat hsql hsize,
    body_same_ok table elementName r sys.toks _ _ hx]
  obtain ⟨bs, args1, c2, _, _, _, _, k5⟩ :=
    loop_forward elementName table (columnsOf r) sys.toks r
      ⟨sys.tables.put table (some []), [.truncate table], sys.fault⟩ hf (by simp [Tables.put])
  have := k5 err hdec
  simp only [columnsOf] at this
  simp [Parse.load, this]

theorem unmarshalAttrs_nil (r : Struct) : unmarshalAttrs r [] = .ok r := by
  cases r <;> rfl

theorem targetsOf_replicate (elementName : String) (attr : List (String × String)) (n : Nat)
    (rest : List Element) :
    targetsOf elementName (List.replicate n (elementName, attr) ++ rest)
      = List.replicate n (elementName, attr) ++ targetsOf elementName rest := by
  induction n with
  | zero => rfl
  | succ n ih =>
    simp only [targetsOf, List.replicate_succ, List.cons_append] at ih ⊢
    rw [List.filter_cons_of_pos (by simp), ih]

theorem snapshots_replicate (r : Struct) (n : Nat) (rest : List (List (String × String))) :
    snapshots r (List.replicate n [] ++ rest) = List.replicate n r ++ snapshots r rest ∧
      firstError r (List.replicate n [] ++ rest) = firstError r rest := by
  induction n with
  | zero => exact ⟨rfl, rfl⟩
  | succ n ih =>
    have h1 : snapshots r ([] :: (List.replicate n [] ++ rest))
        = r :: snapshots r (List.replicate n [] ++ rest) := by
      simp only [snapshots, unmarshalAttrs_nil]
    have h2 : firstError r ([] :: (List.replicate n [] ++ rest))
        = firstError r (List.replicate n [] ++ rest) := by
      simp only [firstError, unmarshalAttrs_nil]
    rw [List.replicate_succ, List.cons_append, h1, h2, ih.1, ih.2]
    exact ⟨rfl, rfl⟩


/-! ## The dispatch of `main` -/

theorem matchDate_digit (s : List Char) (h : matchDate s = true) :
    ∃ c rest, s = c :: rest ∧ c.isDigit = true := by
  cases s with
  | nil => simp [matchDate] at h
  | cons c rest =>
    refine ⟨c, rest, rfl, ?_⟩
    simp only [matchDate, Bool.and_eq_true] at h
    have h2 := h.1.2
    rw [List.all_eq_true] at h2
    exact h2 c (by simp [List.take])

theorem afterTag_same (t1 : List Char) :
    ∀ (t2 s r1 r2 : List Char), afterTag t1 s = some r1 → afterTag t2 s = some r2 →
      (∀ c ∈ t1, c.isDigit = false) → (∀ c ∈ t2, c.isDigit = false) →
      (∃ c rest, r1 = c :: rest ∧ c.isDigit = true) →
      (∃ c rest, r2 = c :: rest ∧ c.isDigit = true) → t1 = t2 := by
  induction t1 with
  | nil =>
    intro t2 s r1 r2 h1 h2 _ d2 e1 _
    cases t2 with
    | nil => rfl
    | cons b t2 =>
      simp only [afterTag, Option.some.injEq] at h1
      subst h1
      obtain ⟨c, rest, rfl, hc⟩ := e1
      simp only [afterTag] at h2
      split at h2
      · rename_i hbc
        have := d2 b (by simp)
        rw [hbc, hc] at this
        simp at this
      · simp at h2
  | cons a t1 ih =>
    intro t2 s r1 r2 h1 h2 d1 d2 e1 e2
    cases s with
    | nil => simp [afterTag] at h1
    | cons c s =>
      simp only [afterTag] at h1
      split at h1
      · rename_i hac
        cases t2 with
        | nil =>
          simp only [afterTag, Option.some.injEq] at h2
          subst h2
          obtain ⟨c2, rest, hr, hc⟩ := e2
          simp only [List.cons.injEq] at hr
          have := d1 a (by simp)
          rw [hac, hr.1, hc] at this
          simp at this
        | cons b t2 =>
          simp only [afterTag] at h2
          split at h2
          · rename_i hbc
            rw [hac, hbc, ih t2 s r1 r2 h1 h2 (fun x hx => d1 x (by simp [hx]))
              (fun x hx => d2 x (by simp [hx])) e1 e2]
          · simp at h2
      · simp at h1

theorem tags_no_digit : ∀ pc ∈ mainCases, ∀ c ∈ pc.1.tag.data, c.isDigit = false := by
  decide

theorem tags_nodup : (mainCases.map fun pc => pc.1.tag).Nodup := by
  decide

theorem match_unique (fileName : String) (pc qc : Pattern × Call) (hp : pc ∈ mainCases)
    (hq : qc ∈ mainCases) (h1 : pc.1.MatchString fileName = true)
    (h2 : qc.1.MatchString fileName = true) : qc = pc := by
  have htag : qc.1.tag = pc.1.tag := by
    unfold Pattern.MatchString at h1 h2
    split at h1
    · rename_i r1 hr1
      split at h2
      · rename_i r2 hr2
        have := afterTag_same _ _ _ _ _ hr2 hr1 (tags_no_digit qc hq) (tags_no_digit pc hp)
          (matchDate_digit _ h2) (matchDate_digit _ h1)
        exact String.ext this
      · simp at h2
    · simp at h1
  exact List.inj_on_of_nodup_map tags_nodup hq hp htag

theorem dispatch_of_match (fileName : String) (pc : Pattern × Call) (hp : pc ∈ mainCases)
    (h1 : pc.1.MatchString fileName = true) : dispatch fileName = some pc.2 := by
  unfold dispatch
  cases hf : mainCases.find? (fun qc => qc.1.MatchString fileName) with
  | none =>
    rw [List.find?_eq_none] at hf
    exact absurd h1 (hf pc hp)
  | some qc =>
    have hq := List.mem_of_find?_eq_some hf
    have h2 := List.find?_some hf
    rw [match_unique fileName pc qc hp hq h1 h2]
    rfl

theorem dispatch_none (fileName : String)
    (h : ∀ pc ∈ mainCases, pc.1.MatchString fileName = false) : dispatch fileName = none := by
  unfold dispatch
  have : mainCases.find? (fun qc => qc.1.MatchString fileName) = none := by
    rw [List.find?_eq_none]
    intro pc hp
    simp [h pc hp]
  rw [this]
  rfl

theorem decodedRows_replicate (elementName : String) (cols : List String) (r : Struct) (n : Nat)
    (rest : List Element) :
    decodedRows elementName cols (stream (List.replicate n (elementName, []) ++ rest)) none r
      = (List.replicate n (makeArgument cols r) ++
            (snapshots r ((targetsOf elementName rest).map Prod.snd)).map (makeArgument cols),
          firstError r ((targetsOf elementName rest).map Prod.snd)) := by
  rw [decodedRows_stream, targetsOf_replicate, List.map_append, List.map_replicate,
    (snapshots_replicate r n _).1, (snapshots_replicate r n _).2, List.map_append,
    List.map_replicate]

/-- C1 (code defect).  A large file with `5000 * k` target elements (`k = 0, 1, 2, ...`) on a
store without faults: `Parse` returns nil, yet it never sends the drop-and-rename statement;
its last statement is the deferred `DROP` of the shadow table, which held all `5000 * k` new
rows.  Afterwards the target table still holds its old rows and the shadow table is gone. -/
theorem Parse_large_multiple_drops_shadow (k : Nat) :
    (Parse (fileOn 20388922 (stream (List.replicate (5000 * k) ("Object", []))) .EOF
        (oneTable "address_objects" [oldRow])) "address_objects" "Object" (new Object)).err
        = none ∧
      Stmt.dropRename "address_objects" "temp_address_objects" ∉
        (Parse (fileOn 20388922 (stream (List.replicate (5000 * k) ("Object", []))) .EOF
          (oneTable "address_objects" [oldRow])) "address_objects" "Object"
          (new Object)).conn.log ∧
      (Parse (fileOn 20388922 (stream (List.replicate (5000 * k) ("Object", []))) .EOF
          (oneTable "address_objects" [oldRow])) "address_objects" "Object"
          (new Object)).conn.log.getLast? = some (.drop "temp_address_objects") ∧
      ((insertsOf (Parse (fileOn 20388922 (stream (List.replicate (5000 * k) ("Object", [])))
          .EOF (oneTable "address_objects" [oldRow])) "address_objects" "Object"
          (new Object)).conn.log).map Prod.snd).flatten.length = 5000 * k ∧
      (Parse (fileOn 20388922 (stream (List.replicate (5000 * k) ("Object", []))) .EOF
          (oneTable "address_objects" [oldRow])) "address_objects" "Object"
          (new Object)).conn.tables "address_objects" = some [oldRow] ∧
      (Parse (fileOn 20388922 (stream (List.replicate (5000 * k) ("Object", []))) .EOF
          (oneTable "address_objects" [oldRow])) "address_objects" "Object"
          (new Object)).conn.tables "temp_address_objects" = none := by
  have hrows := decodedRows_replicate "Object" (columnsOf (new Object)) (new Object) (5000 * k) []
  simp only [List.append_nil, targetsOf, List.filter_nil, List.map_nil, snapshots,
    firstError] at hrows
  have htemp : "temp_" ++ "address_objects" = "temp_address_objects" := by decide
  obtain ⟨h1, h2, h3, h4⟩ := large_multiple_no_swap
    (fileOn 20388922 (stream (List.replicate (5000 * k) ("Object", []))) .EOF
      (oneTable "address_objects" [oldRow])) "address_objects" "Object" (new Object) [oldRow]
    rfl rfl rfl (by simp [fileOn]) (fun _ => rfl) (by simp [fileOn, oneTable])
    (by simp [fileOn, oneTable, temp_ne])
    (by simp only [fileOn]; rw [hrows])
    (by simp only [fileOn]; rw [hrows]; simp)
  rw [htemp] at h2 h4
  refine ⟨h1, ?_, ?_, ?_, h3, h4⟩
  · rw [h2]
    simp
  · rw [h2, ← List.cons_append]
    exact List.getLast?_concat _
  · rw [h2]
    have hc : ∀ l : List Stmt, insertsOf (Stmt.createLike "temp_address_objects"
        "address_objects" :: l) = insertsOf l := fun l => rfl
    rw [hc, insertsOf_append, insertsOf_map]
    have hd : insertsOf [Stmt.drop "temp_address_objects"] = [] := rfl
    rw [hd, List.append_nil, List.map_map]
    have hid : (Prod.snd ∘ fun b : List Record => ("temp_address_objects", b)) = id := rfl
    rw [hid, List.map_id, chunksOf_flatten 5000 (by omega)]
    simp only [fileOn]
    rw [hrows]
    simp

/-- C2 (code defect).  `Parse` never looks at what the token reader reports when it stops:
its outcome is the same whether the reader ended with `io.EOF` or with a syntax error.  On a
large file cut off after its first element, where the reader reports a syntax error, `Parse`
returns nil, inserts the one row decoded so far and swaps the shadow table in, so the target
table ends up holding that partial row set. -/
theorem Parse_ignores_token_error :
    (∀ (sys : Sys) (e : GoError) (table elementName : String) (r : Struct),
      Parse { sys with final := e } table elementName r = Parse sys table elementName r) ∧
    (Parse (fileOn 20388922 cutDoc .syntaxError (oneTable "actual_status" [oldRow]))
        "actual_status" "ActualStatus" (new ActualStatus)).err = none ∧
    (Parse (fileOn 20388922 cutDoc .syntaxError (oneTable "actual_status" [oldRow]))
        "actual_status" "ActualStatus" (new ActualStatus)).conn.log
      = [.createLike "temp_actual_status" "actual_status",
         .insert "temp_actual_status" [[("actstatid", .int 1), ("name", .string "a")]],
         .dropRename "actual_status" "temp_actual_status",
         .drop "temp_actual_status"] ∧
    (Parse (fileOn 20388922 cutDoc .syntaxError (oneTable "actual_status" [oldRow]))
        "actual_status" "ActualStatus" (new ActualStatus)).conn.tables "actual_status"
      = some [[("actstatid", .int 1), ("name", .string "a")]] := by
  refine ⟨fun _ _ _ _ _ => rfl, ?_, ?_, ?_⟩ <;> decide

/-- C3 (code defect).  Two `ActualStatus` elements are loaded, the first with `NAME="a"`, the
second without a `NAME` attribute.  Both are decoded into the one struct `r` points to, so the
row of the second element carries the name of the first instead of the empty string. -/
theorem Parse_row_keeps_earlier_value :
    (Parse (fileOn 200 statusDoc .EOF (oneTable "actual_status" [oldRow]))
        "actual_status" "ActualStatus" (new ActualStatus)).err = none ∧
    (Parse (fileOn 200 statusDoc .EOF (oneTable "actual_status" [oldRow]))
        "actual_status" "ActualStatus" (new ActualStatus)).conn.tables "actual_status"
      = some [[("actstatid", .int 1), ("name", .string "a")],
              [("actstatid", .int 2), ("name", .string "a")]] := by
  constructor <;> decide


theorem afterTag_append (tag rest : List Char) : afterTag tag (tag ++ rest) = some rest := by
  induction tag with
  | nil => cases rest <;> rfl
  | cons a tag ih => simp [afterTag, ih]

theorem matchDate_shape (digits suffix : List Char) (c : Char) (hlen : digits.length = 8)
    (hdig : digits.all Char.isDigit = true) (hc : c ≠ '\n') :
    matchDate (digits ++ '_' :: c :: suffix) = true := by
  have h1 : (digits ++ '_' :: c :: suffix).take 8 = digits := List.take_left' hlen
  have h2 : (digits ++ '_' :: c :: suffix).drop 8 = '_' :: c :: suffix := List.drop_left' hlen
  simp only [matchDate, h1, h2, hlen, hdig]
  simpa using hc

theorem MatchString_shape (p : Pattern) (fileName : String) (digits suffix : List Char)
    (c : Char) (hlen : digits.length = 8) (hdig : digits.all Char.isDigit = true)
    (hc : c ≠ '\n') (hname : fileName.data = p.tag.data ++ (digits ++ '_' :: c :: suffix)) :
    p.MatchString fileName = true := by
  unfold Pattern.MatchString
  rw [hname, afterTag_append]
  exact matchDate_shape digits suffix c hlen hdig hc

/-- C6.  For every file name: a case of the `switch` of `main` whose pattern matches the name
is the only one that does, and `dispatch` selects its `Parse` call (target table, element name,
record type); a name that no pattern matches selects nothing.  A name made of the tag of a
case, eight decimal digits, an underscore and a suffix that does not start with a newline
matches that case and so selects its call.  In particular a name matching
the pattern of `AS_DEL_ADDROBJ_`, `AS_DEL_HOUSE_`, `AS_DEL_HOUSEINT_`, `AS_DEL_NORMDOC_` or
`AS_HOUSEINT_` is loaded into the table of that tag, not of `AS_ADDROBJ_`, `AS_HOUSE_`,
`AS_HOUSEINT_` or `AS_NORMDOC_`. -/
theorem dispatch_selects (fileName : String) :
    (∀ pc ∈ mainCases, pc.1.MatchString fileName = true →
      dispatch fileName = some pc.2 ∧
        ∀ qc ∈ mainCases, qc.1.MatchString fileName = true → qc = pc) ∧
    ((∀ pc ∈ mainCases, pc.1.MatchString fileName = false) → dispatch fileName = none) ∧
    (∀ pc ∈ mainCases, ∀ (digits suffix : List Char) (c : Char), digits.length = 8 →
      digits.all Char.isDigit = true → c ≠ '\n' →
      fileName.data = pc.1.tag.data ++ (digits ++ '_' :: c :: suffix) →
      dispatch fileName = some pc.2) ∧
    (DEL_ADDROBJ_PATTERN.MatchString fileName = true →
      (dispatch fileName).map Call.table = some "del_address_objects") ∧
    (DEL_HOUSE_PATTERN.MatchString fileName = true →
      (dispatch fileName).map Call.table = some "del_house") ∧
    (DEL_HOUSEINT_PATTERN.MatchString fileName = true →
      (dispatch fileName).map Call.table = some "del_house_interval") ∧
    (DEL_NORMDOC_PATTERN.MatchString fileName = true →
      (dispatch fileName).map Call.table = some "del_normative_document") ∧
    (HOUSEINT_PATTERN.MatchString fileName = true →
      (dispatch fileName).map Call.table = some "house_interval") := by
  refine ⟨fun pc hp h => ⟨dispatch_of_match fileName pc hp h,
      fun qc hq h2 => match_unique fileName pc qc hp hq h h2⟩,
    dispatch_none fileName,
    fun pc hp digits suffix c hlen hdig hc hname => dispatch_of_match fileName pc hp
      (MatchString_shape pc.1 fileName digits suffix c hlen hdig hc hname),
    fun h => ?_, fun h => ?_, fun h => ?_, fun h => ?_, fun h => ?_⟩
  · rw [dispatch_of_match fileName
      (DEL_ADDROBJ_PATTERN, ⟨"del_address_objects", "Object", Object⟩) (by simp [mainCases]) h]
    rfl
  · rw [dispatch_of_match fileName
      (DEL_HOUSE_PATTERN, ⟨"del_house", "House", House⟩) (by simp [mainCases]) h]
    rfl
  · rw [dispatch_of_match fileName
      (DEL_HOUSEINT_PATTERN, ⟨"del_house_interval", "HouseInterval", HouseInterval⟩)
      (by simp [mainCases]) h]
    rfl
  · rw [dispatch_of_match fileName
      (DEL_NORMDOC_PATTERN, ⟨"del_normative_document", "NormativeDocument", NormativeDocument⟩)
      (by simp [mainCases]) h]
    rfl
  · rw [dispatch_of_match fileName
      (HOUSEINT_PATTERN, ⟨"house_interval", "HouseInterval", HouseInterval⟩)
      (by simp [mainCases]) h]
    rfl

theorem dispatch_selects_witness :
    DEL_HOUSEINT_PATTERN.MatchString "AS_DEL_HOUSEINT_20190101_ab.XML" = true ∧
      (dispatch "AS_DEL_HOUSEINT_20190101_ab.XML").map Call.table
        = some "del_house_interval" ∧
      ((∀ pc ∈ mainCases, pc.1.MatchString "AS_HOUSE_2019_ab.XML" = false) ∧
        dispatch "AS_HOUSE_2019_ab.XML" = none) :=
  ⟨by decide, (dispatch_selects "AS_DEL_HOUSEINT_20190101_ab.XML").2.2.2.2.2.1 (by decide),
    by decide, (dispatch_selects "AS_HOUSE_2019_ab.XML").2.1 (by decide)⟩

/-- C10 (code defect).  The case of `AS_CURENTST_` passes the record type `CenterStatus`, the
same type as the case of `AS_CENTERST_`, with the element name `CurrentStatus`; the case of
`AS_NORMDOC_` passes `NormativeDocumentType`, the type of the case of `AS_NDOCTYPE_`, with the
element name `NormativeDocument`.  So one record type is bound to two element names, and a
`CurrentStatus` element is turned into a row with the columns of `CenterStatus`: its
`CURENTSTID` attribute is lost and the row has a `centerstid` column instead. -/
theorem dispatch_record_type_reused :
    dispatch "AS_CENTERST_20190101_ab.XML"
        = some ⟨"center_status", "CenterStatus", CenterStatus⟩ ∧
      dispatch "AS_CURENTST_20190101_ab.XML"
        = some ⟨"current_status", "CurrentStatus", CenterStatus⟩ ∧
      dispatch "AS_NDOCTYPE_20190101_ab.XML"
        = some ⟨"normative_document_type", "NormativeDocumentType", NormativeDocumentType⟩ ∧
      dispatch "AS_NORMDOC_20190101_ab.XML"
        = some ⟨"normative_document", "NormativeDocument", NormativeDocumentType⟩ ∧
      dispatch "AS_DEL_NORMDOC_20190101_ab.XML"
        = some ⟨"del_normative_document", "NormativeDocument", NormativeDocument⟩ ∧
      (Parse (fileOn 200 [.StartElement "CurrentStatus" [("CURENTSTID", "5"), ("NAME", "a")],
            .EndElement "CurrentStatus"] .EOF (oneTable "current_status" []))
          "current_status" "CurrentStatus" (new CenterStatus)).conn.tables "current_status"
        = some [[("centerstid", .int 0), ("name", .string "a")]] := by
  refine ⟨?_, ?_, ?_, ?_, ?_, ?_⟩ <;> decide


theorem small_failure_after (n : Nat) :
    (Parse (fileOn 200000 (stream (List.replicate n ("ActualStatus", []) ++ [badElem])) .EOF
        (oneTable "actual_status" [oldRow])) "actual_status" "ActualStatus"
        (new ActualStatus)).err = some (.numError "x") ∧
      (Parse (fileOn 200000 (stream (List.replicate n ("ActualStatus", []) ++ [badElem]))
        .EOF (oneTable "actual_status" [oldRow])) "actual_status" "ActualStatus"
        (new ActualStatus)).conn.tables "actual_status"
        = some (List.replicate (5000 * (n / 5000))
            [("actstatid", .int 0), ("name", .string "")]) := by
  have hrows := decodedRows_replicate "ActualStatus" (columnsOf (new ActualStatus))
    (new ActualStatus) n [badElem]
  have ht : (targetsOf "ActualStatus" [badElem]).map Prod.snd = [[("ACTSTATID", "x")]] := by
    decide
  have hs : snapshots (new ActualStatus) [[("ACTSTATID", "x")]] = [] := by decide
  have hfe : firstError (new ActualStatus) [[("ACTSTATID", "x")]] = some (.numError "x") := by
    decide
  have hrow : makeArgument (columnsOf (new ActualStatus)) (new ActualStatus)
      = [("actstatid", .int 0), ("name", .string "")] := by decide
  rw [ht, hs, hfe, hrow, List.map_nil, List.append_nil] at hrows
  have herr := small_decode_forward
    (fileOn 200000 (stream (List.replicate n ("ActualStatus", []) ++ [badElem])) .EOF
      (oneTable "actual_status" [oldRow])) "actual_status" "ActualStatus" (new ActualStatus)
    [oldRow] (.numError "x") rfl rfl rfl (by simp [fileOn]) (fun _ => rfl)
    (by simp [fileOn, oneTable]) (by simp only [fileOn]; rw [hrows])
  have htab := (small_decode_failure
    (fileOn 200000 (stream (List.replicate n ("ActualStatus", []) ++ [badElem])) .EOF
      (oneTable "actual_status" [oldRow])) "actual_status" "ActualStatus" (new ActualStatus)
    (.numError "x") rfl rfl rfl (by simp [fileOn]) herr rfl).2
  have htoks : (fileOn 200000 (stream (List.replicate n ("ActualStatus", []) ++ [badElem]))
      .EOF (oneTable "actual_status" [oldRow])).toks
      = stream (List.replicate n ("ActualStatus", []) ++ [badElem]) := rfl
  rw [htoks, hrows] at htab
  simp only [List.length_replicate, List.take_replicate] at htab
  rw [Nat.min_eq_left (Nat.mul_div_le n 5000)] at htab
  exact ⟨herr, htab⟩

/-- C8 as stated fails.  A small file with 5000 `ActualStatus` elements followed by one whose
`ACTSTATID` is not a number: `Parse` returns the conversion error, and the target table is not
empty, it holds the 5000 rows of the batch inserted before the failure. -/
theorem Parse_small_failure_not_empty :
    (Parse (fileOn 200000 (stream (List.replicate 5000 ("ActualStatus", []) ++ [badElem])) .EOF
        (oneTable "actual_status" [oldRow])) "actual_status" "ActualStatus"
        (new ActualStatus)).err = some (.numError "x") ∧
      (Parse (fileOn 200000 (stream (List.replicate 5000 ("ActualStatus", []) ++ [badElem]))
        .EOF (oneTable "actual_status" [oldRow])) "actual_status" "ActualStatus"
        (new ActualStatus)).conn.tables "actual_status"
        = some (List.replicate 5000 [("actstatid", .int 0), ("name", .string "")]) ∧
      (Parse (fileOn 200000 (stream (List.replicate 5000 ("ActualStatus", []) ++ [badElem]))
        .EOF (oneTable "actual_status" [oldRow])) "actual_status" "ActualStatus"
        (new ActualStatus)).conn.tables "actual_status" ≠ some [] := by
  have h := small_failure_after 5000
  refine ⟨h.1, h.2, fun h0 => ?_⟩
  have h1 := congrArg (Option.map List.length) (h.2.symm.trans h0)
  simp only [Option.map_some', List.length_replicate, List.length_nil, Option.some.injEq] at h1
  omega

/-- C8 as amended.  When a small file's load returns a decode error, the target table has
been truncated and then holds exactly the batches inserted before the failure: the first
`5000 * (k / 5000)` of the `k` rows decoded before the failing element, and none of its
previous rows.  It is empty whenever fewer than 5000 rows had been decoded. -/
theorem Parse_small_failure_table (sys : Sys) (table elementName : String) (r : Struct)
    (e : GoError)
    (hopen : sys.openErr = none) (hstat : sys.statErr = none) (hsql : sys.sqlOpenErr = none)
    (hsize : sys.size ≤ 20388921) (herr : (Parse sys table elementName r).err = some e)
    (hdec : e.isDecode = true) :
    (decodedRows elementName (columnsOf r) sys.toks none r).2 = some e ∧
      (Parse sys table elementName r).conn.tables table
        = some ((decodedRows elementName (columnsOf r) sys.toks none r).1.take
            (5000 * ((decodedRows elementName (columnsOf r) sys.toks none r).1.length / 5000))) ∧
      ((decodedRows elementName (columnsOf r) sys.toks none r).1.length < 5000 →
        (Parse sys table elementName r).conn.tables table = some []) := by
  obtain ⟨h1, h2⟩ :=
    small_decode_failure sys table elementName r e hopen hstat hsql hsize herr hdec
  refine ⟨h1, h2, fun hlt => ?_⟩
  rw [h2, Nat.div_eq_of_lt hlt]
  simp

theorem Parse_small_failure_table_witness :
    (fileOn 200 (stream [badElem]) .EOF (oneTable "actual_status" [oldRow])).size ≤ 20388921 ∧
      (Parse (fileOn 200 (stream [badElem]) .EOF (oneTable "actual_status" [oldRow]))
        "actual_status" "ActualStatus" (new ActualStatus)).err = some (.numError "x") ∧
      (Parse (fileOn 200 (stream [badElem]) .EOF (oneTable "actual_status" [oldRow]))
        "actual_status" "ActualStatus" (new ActualStatus)).conn.tables "actual_status"
        = some [] :=
  ⟨by decide, by decide,
    (Parse_small_failure_table (fileOn 200 (stream [badElem]) .EOF
      (oneTable "actual_status" [oldRow])) "actual_status" "ActualStatus" (new ActualStatus)
      (.numError "x") rfl rfl rfl (by decide) (by decide) rfl).2.2 (by decide)⟩

theorem Parse_batches_witness :
    (Parse (fileOn 200 statusDoc .EOF (oneTable "actual_status" [oldRow]))
        "actual_status" "ActualStatus" (new ActualStatus)).err = none ∧
      insertsOf (Parse (fileOn 200 statusDoc .EOF (oneTable "actual_status" [oldRow]))
        "actual_status" "ActualStatus" (new ActualStatus)).conn.log
        = (chunksOf 5000 (decodedRows "ActualStatus" (columnsOf (new ActualStatus))
            (fileOn 200 statusDoc .EOF (oneTable "actual_status" [oldRow])).toks none
            (new ActualStatus)).1).map
            (fun b => (writeTarget
              (fileOn 200 statusDoc .EOF (oneTable "actual_status" [oldRow])).size
              "actual_status", b)) :=
  ⟨by decide,
    (Parse_batches (fileOn 200 statusDoc .EOF (oneTable "actual_status" [oldRow]))
      "actual_status" "ActualStatus" (new ActualStatus) (by decide)).1⟩

theorem Parse_write_target_witness :
    (∃ rest, (Parse (fileOn 20388922 statusDoc .EOF (oneTable "actual_status" [oldRow]))
        "actual_status" "ActualStatus" (new ActualStatus)).conn.log
          = .createLike ("temp_" ++ "actual_status") "actual_status" :: rest ∧
        (∀ t, Stmt.truncate t ∉ rest) ∧ (∀ a b, Stmt.createLike a b ∉ rest) ∧
        ∀ p ∈ insertsOf (Parse (fileOn 20388922 statusDoc .EOF
            (oneTable "actual_status" [oldRow])) "actual_status" "ActualStatus"
            (new ActualStatus)).conn.log, p.1 = "temp_" ++ "actual_status") ∧
      (Parse (fileOn 20388921 statusDoc .EOF (oneTable "actual_status" [oldRow]))
        "actual_status" "ActualStatus" (new ActualStatus)).conn.log.head?
        = some (.truncate "actual_status") :=
  ⟨(Parse_write_target (fileOn 20388922 statusDoc .EOF (oneTable "actual_status" [oldRow]))
      "actual_status" "ActualStatus" (new ActualStatus) rfl rfl rfl).1 (by decide),
    by
      obtain ⟨rest, h, _⟩ := (Parse_write_target
        (fileOn 20388921 statusDoc .EOF (oneTable "actual_status" [oldRow]))
        "actual_status" "ActualStatus" (new ActualStatus) rfl rfl rfl).2 (by decide)
      rw [h]
      rfl⟩

/-! ## The version check and the cycle of `main` -/

theorem intstring_above (v : Int) (h : 0x10FFFF < v) :
    intstring v = String.singleton (Char.ofNat 0xFFFD) := by
  unfold intstring
  rw [if_neg]
  omega

theorem nextCheck_same_text (prev : CheckOutcome) (v w : Int) (url : String)
    (hprev : prev.value = some (intstring v)) (hsame : intstring w = intstring v) :
    nextCheck prev w url = ⟨.ret "" none, some (intstring v), []⟩ := by
  simp [nextCheck, checkNewFile, hprev, hsame]

/-- C11 (code defect).  The marker is the text `string(versionID)`, which for an `int` is the
character with that code point, not its decimal digits; every identifier above `0x10FFFF`
gives the same one-character text `U+FFFD`.  A check that finds version 20190101 writes that
marker and returns the URL; the next check, with the remote service reporting the different
version 20190102, finds the marker equal, returns the empty path and sends no update. -/
theorem checkNewFile_marker_collision :
    intstring 20190101 = intstring 20190102 ∧
      checkNewFile ⟨none, 20190101, "u1", none, some "", none, none⟩
        = ⟨.ret "u1" none, some (intstring 20190101), [intstring 20190101]⟩ ∧
      nextCheck (checkNewFile ⟨none, 20190101, "u1", none, some "", none, none⟩) 20190102 "u2"
        = ⟨.ret "" none, some (intstring 20190101), []⟩ := by
  refine ⟨?_, ?_, ?_⟩ <;> decide

/-- C12 as stated fails.  A cycle that finds a new version sleeps `150 * time.Hour` after its
per-file loop; a cycle that finds the version unchanged sleeps `24 * time.Hour`; and 150 hours
is not shorter than 24 hours. -/
theorem main_sleep_not_shorter :
    mainCycle (newVersionCycle "u1" ["AS_ROOM_20190101_ab.XML", "readme.txt"])
        = ([.parse "AS_ROOM_20190101_ab.XML" ⟨"rooms", "Room", Room⟩, .sleep (150 * Hour)],
            .again) ∧
      mainCycle unchangedCycle = ([.sleep (24 * Hour)], .leave) ∧
      ¬(150 * Hour < 24 * Hour) := by
  refine ⟨?_, ?_, ?_⟩ <;> decide

/-- C12 as amended.  A cycle that finds a new version and gets through download, unpacking and
directory listing ends its per-file loop with a sleep of `150 * time.Hour`, after which the
loop starts its next iteration; a cycle that finds the version unchanged sleeps
`24 * time.Hour`; and the sleep after the per-file loop is strictly the longer of the two. -/
theorem main_sleep_intervals (w u : Cycle) (rest : List Cycle) (check : String)
    (hcheck : w.check = .ret check none) (hne : check ≠ "")
    (hdown : w.downloadErr = none) (hunrar : w.unrarErr = none) (habs : w.absErr = none)
    (hdir : w.readDirErr = none) (hu : u.check = .ret "" none) :
    mainCycle w = (parseFiles w.files ++ [.sleep (150 * Hour)], .again) ∧
      mainLoop (w :: rest) = parseFiles w.files ++ [.sleep (150 * Hour)] ++ mainLoop rest ∧
      (∀ d, Event.sleep d ∉ parseFiles w.files) ∧
      mainCycle u = ([.sleep (24 * Hour)], .leave) ∧
      24 * Hour < 150 * Hour := by
  have h1 : mainCycle w = (parseFiles w.files ++ [.sleep (150 * Hour)], .again) := by
    simp [mainCycle, hcheck, hne, hdown, hunrar, habs, hdir]
  refine ⟨h1, ?_, ?_, ?_, by decide⟩
  · simp only [mainLoop, h1]
  · intro d hd
    simp only [parseFiles, List.mem_filterMap] at hd
    obtain ⟨name, _, hname⟩ := hd
    cases hdisp : dispatch name with
    | none => simp [hdisp] at hname
    | some call => simp [hdisp] at hname
  · simp [mainCycle, hu]

theorem main_sleep_intervals_witness :
    (newVersionCycle "u1" ["AS_ROOM_20190101_ab.XML"]).check = .ret "u1" none ∧
      unchangedCycle.check = .ret "" none ∧
      mainLoop (newVersionCycle "u1" ["AS_ROOM_20190101_ab.XML"] :: [unchangedCycle])
        = parseFiles (newVersionCycle "u1" ["AS_ROOM_20190101_ab.XML"]).files
            ++ [.sleep (150 * Hour)] ++ mainLoop [unchangedCycle] :=
  ⟨rfl, rfl,
    (main_sleep_intervals (newVersionCycle "u1" ["AS_ROOM_20190101_ab.XML"]) unchangedCycle
      [unchangedCycle] "u1" rfl (by decide) rfl rfl rfl rfl rfl).2.1⟩

theorem length_le_one_of_all_eq (l : List Pattern) (hnd : l.Nodup)
    (h : ∀ a ∈ l, ∀ b ∈ l, a = b) : l.length ≤ 1 := by
  match l, hnd, h with
  | [], _, _ => simp
  | [_], _, _ => simp
  | a :: b :: _, hnd, h =>
    have hab : a = b := h a (by simp) b (by simp)
    subst hab
    simp at hnd

theorem patterns_eq : mainCases.map Prod.fst = patterns := by
  decide

/-- C13.  The patterns `ACTSTAT_PATTERN` .. `ROOM_PATTERN` are the patterns of the cases of
the `switch`, and for every string at most one of them matches: two patterns that match the
same string are the same pattern.  So the `switch` selects the same `Parse` call, or none, in
whatever order its cases are listed. -/
theorem patterns_disjoint (s : String) :
    mainCases.map Prod.fst = patterns ∧
      (∀ p ∈ patterns, ∀ q ∈ patterns, p.MatchString s = true → q.MatchString s = true →
        p = q) ∧
      (patterns.filter fun p => p.MatchString s).length ≤ 1 ∧
      (∀ cases : List (Pattern × Call), cases.Perm mainCases →
        (cases.find? fun pc => pc.1.MatchString s).map Prod.snd = dispatch s) := by
  have hpair : ∀ p ∈ patterns, ∀ q ∈ patterns, p.MatchString s = true →
      q.MatchString s = true → p = q := by
    intro p hp q hq h1 h2
    rw [← patterns_eq, List.mem_map] at hp hq
    obtain ⟨pc, hpc, rfl⟩ := hp
    obtain ⟨qc, hqc, rfl⟩ := hq
    rw [match_unique s pc qc hpc hqc h1 h2]
  refine ⟨patterns_eq, hpair, ?_, ?_⟩
  · apply length_le_one_of_all_eq
    · exact List.Nodup.filter _ (by decide)
    · intro a ha b hb
      rw [List.mem_filter] at ha hb
      exact hpair a ha.1 b hb.1 ha.2 hb.2
  · intro cases hperm
    cases hf : cases.find? (fun pc => pc.1.MatchString s) with
    | none =>
      rw [List.find?_eq_none] at hf
      rw [dispatch_none s (fun pc hp => by simpa using hf pc (hperm.mem_iff.mpr hp))]
      rfl
    | some qc =>
      have hq := hperm.mem_iff.mp (List.mem_of_find?_eq_some hf)
      have h2 := List.find?_some hf
      rw [dispatch_of_match s qc hq h2]
      rfl

theorem patterns_disjoint_witness :
    mainCases.reverse.Perm mainCases ∧
      (mainCases.reverse.find? fun pc => pc.1.MatchString "AS_DEL_HOUSE_20190101_ab.XML").map
          Prod.snd = dispatch "AS_DEL_HOUSE_20190101_ab.XML" :=
  ⟨List.reverse_perm mainCases,
    (patterns_disjoint "AS_DEL_HOUSE_20190101_ab.XML").2.2.2 mainCases.reverse
      (List.reverse_perm mainCases)⟩

/-! ## Loads that fail, and loads into a store without faults -/

theorem decodedRows_unnested (elementName : String) (cols : List String) (toks : List Token) :
    ∀ (inside : Option Nat) (r : Struct), Unnested elementName toks inside = true →
      decodedRows elementName cols toks inside r
        = ((match inside with
            | none => []
            | some _ => [makeArgument cols r]) ++
            (snapshots r (targetAttrs elementName toks)).map (makeArgument cols),
          firstError r (targetAttrs elementName toks)) := by
  induction toks with
  | nil =>
    intro inside r h
    cases inside with
    | none => rfl
    | some d => simp [Unnested] at h
  | cons t rest ih =>
    intro inside r h
    cases inside with
    | none =>
      cases t with
      | StartElement name attr =>
        by_cases hn : name = elementName
        · have hta : targetAttrs elementName (.StartElement name attr :: rest)
              = attr :: targetAttrs elementName rest := by
            simp [targetAttrs, hn]
          simp only [Unnested, hn, if_true] at h
          rw [hta]
          cases hu : unmarshalAttrs r attr with
          | error err => simp [decodedRows, hn, hu, snapshots, firstError]
          | ok r1 => simp [decodedRows, hn, hu, snapshots, firstError, ih (some 0) r1 h]
        · have hta : targetAttrs elementName (.StartElement name attr :: rest)
              = targetAttrs elementName rest := by
            simp [targetAttrs, hn]
          simp only [Unnested, hn, if_false] at h
          rw [hta]
          simp [decodedRows, hn, ih none r h]
      | EndElement name =>
        simp only [Unnested] at h
        simpa [decodedRows, targetAttrs] using ih none r h
      | CharData data =>
        simp only [Unnested] at h
        simpa [decodedRows, targetAttrs] using ih none r h
      | Misc =>
        simp only [Unnested] at h
        simpa [decodedRows, targetAttrs] using ih none r h
    | some depth =>
      cases t with
      | StartElement name attr =>
        by_cases hn : name = elementName
        · simp [Unnested, hn] at h
        · simp only [Unnested, hn, if_false] at h
          simpa [decodedRows, targetAttrs, hn] using ih (some (depth + 1)) r h
      | EndElement name =>
        cases depth with
        | succ d =>
          simp only [Unnested] at h
          simpa [decodedRows, targetAttrs] using ih (some d) r h
        | zero =>
          simp only [Unnested] at h
          have := ih none r h
          simp only [List.nil_append] at this
          simp [decodedRows, targetAttrs, this]
      | CharData data =>
        simp only [Unnested] at h
        simpa [decodedRows, targetAttrs] using ih (some depth) r h
      | Misc =>
        simp only [Unnested] at h
        simpa [decodedRows, targetAttrs] using ih (some depth) r h

theorem copyValue_isDecode (kind : Kind) (src : String) (e : GoError)
    (h : copyValue kind src = .error e) : e.isDecode = true := by
  unfold copyValue at h
  split at h
  · simp at h
  · split at h
    · simp at h
    · split at h
      · simp at h
      · simp only [Except.error.injEq] at h
        subst h
        rfl
  · split at h
    · simp at h
    · split at h
      · simp at h
      · simp only [Except.error.injEq] at h
        subst h
        rfl

theorem unmarshalAttr_isDecode (a : String × String) (e : GoError) :
    ∀ r : Struct, unmarshalAttr r a = .error e → e.isDecode = true := by
  intro r
  induction r with
  | nil => intro h; simp [unmarshalAttr] at h
  | cons fv rest ih =>
    intro h
    obtain ⟨f, v⟩ := fv
    simp only [unmarshalAttr] at h
    split at h
    · split at h
      · rename_i err hc
        simp only [Except.error.injEq] at h
        subst h
        exact copyValue_isDecode _ _ _ hc
      · split at h
        · rename_i err hr
          simp only [Except.error.injEq] at h
          subst h
          exact ih hr
        · simp at h
    · split at h
      · rename_i err hr
        simp only [Except.error.injEq] at h
        subst h
        exact ih hr
      · simp at h

theorem unmarshalAttrs_isDecode (attr : List (String × String)) (e : GoError) :
    ∀ r : Struct, unmarshalAttrs r attr = .error e → e.isDecode = true := by
  induction attr with
  | nil => intro r h; simp [unmarshalAttrs] at h
  | cons a rest ih =>
    intro r h
    simp only [unmarshalAttrs] at h
    split at h
    · rename_i err hr
      simp only [Except.error.injEq] at h
      subst h
      exact unmarshalAttr_isDecode a _ r hr
    · exact ih _ h

theorem decodedRows_isDecode (elementName : String) (cols : List String) (toks : List Token)
    (e : GoError) :
    ∀ (inside : Option Nat) (r : Struct),
      (decodedRows elementName cols toks inside r).2 = some e → e.isDecode = true := by
  induction toks with
  | nil =>
    intro inside r h
    cases inside with
    | none => simp [decodedRows] at h
    | some d =>
      simp only [decodedRows, Option.some.injEq] at h
      subst h
      rfl
  | cons t rest ih =>
    intro inside r h
    cases inside with
    | none =>
      cases t with
      | StartElement name attr =>
        by_cases hn : name = elementName
        · cases hu : unmarshalAttrs r attr with
          | error err =>
            simp only [decodedRows, hn, hu, if_true, Option.some.injEq] at h
            subst h
            exact unmarshalAttrs_isDecode attr _ r hu
          | ok r1 =>
            simp only [decodedRows, hn, hu, if_true] at h
            exact ih (some 0) r1 h
        · simp only [decodedRows, hn, if_false] at h
          exact ih none r h
      | EndElement name => simp only [decodedRows] at h; exact ih none r h
      | CharData data => simp only [decodedRows] at h; exact ih none r h
      | Misc => simp only [decodedRows] at h; exact ih none r h
    | some depth =>
      cases t with
      | StartElement name attr => simp only [decodedRows] at h; exact ih _ r h
      | EndElement name =>
        cases depth with
        | succ d => simp only [decodedRows] at h; exact ih _ r h
        | zero => simp only [decodedRows] at h; exact ih none r h
      | CharData data => simp only [decodedRows] at h; exact ih _ r h
      | Misc => simp only [decodedRows] at h; exact ih _ r h


theorem Flushed_log_length (tgt : String) (c c1 : Conn) (bs : List (List Record))
    (h : Flushed tgt c c1 bs) : c1.log.length = c.log.length + bs.length := by
  rw [h.1, List.length_append, List.length_map]

theorem flushed_count (bs : List (List Record)) (args1 rows : List Record)
    (h1 : ∀ b ∈ bs, b.length = 5000) (h2 : bs.flatten ++ args1 = rows)
    (h3 : args1.length < 5000) : bs.length = rows.length / 5000 := by
  have hl := flatten_length 5000 bs h1
  have hr : rows.length = 5000 * bs.length + args1.length := by
    rw [← h2, List.length_append, hl]
  omega

theorem loop_run_clean (elementName tgt : String) (cols : List String) (toks : List Token)
    (r : Struct) (c : Conn) (ht : (c.tables tgt).isSome = true)
    (hf : ∀ i, i < (decodedRows elementName cols toks none r).1.length / 5000 →
      c.fault (c.log.length + i) = false) :
    ∃ (bs : List (List Record)) (args1 : List Record) (c1 : Conn),
      Flushed tgt c c1 bs ∧
        bs.flatten ++ args1 = (decodedRows elementName cols toks none r).1 ∧
        args1.length < 5000 ∧
        ((decodedRows elementName cols toks none r).2 = none →
          Parse.loop elementName tgt cols toks none r [] c = .brk args1 c1) ∧
        (∀ err, (decodedRows elementName cols toks none r).2 = some err →
          Parse.loop elementName tgt cols toks none r [] c = .ret err c1) := by
  obtain ⟨h1, h2⟩ := loop_spec elementName tgt cols toks none r [] c (by simp)
  cases hx : Parse.loop elementName tgt cols toks none r [] c with
  | brk a c1 =>
    obtain ⟨bs, g1, g2, g3, g4⟩ := h1 a c1 hx
    refine ⟨bs, a, c1, g1, by simpa using g3, g4, fun _ => rfl, fun err he => ?_⟩
    rw [g2] at he
    simp at he
  | ret err c1 =>
    obtain ⟨bs, g | g⟩ := h2 err c1 hx
    · obtain ⟨g1, g2, args1, g3, g4⟩ := g
      refine ⟨bs, args1, c1, g1, by simpa using g3, g4, fun hn => ?_, fun err1 he => ?_⟩
      · rw [g2] at hn
        simp at hn
      · rw [g2] at he
        simp only [Option.some.injEq] at he
        rw [he]
    · obtain ⟨c0, b, g1, g2, _, _, _, _, g7, tl, g8⟩ := g
      exfalso
      rcases g7 with g7 | g7
      · have hl := flatten_length 5000 bs g1.2.2.1
        have hlen := congrArg List.length g8
        simp only [List.length_append, List.nil_append, hl, g2] at hlen
        have := hf bs.length (by omega)
        rw [Flushed_log_length tgt c c0 bs g1, this] at g7
        simp at g7
      · rw [g7] at ht
        simp at ht

theorem loop_run_fault (elementName tgt : String) (cols : List String) (toks : List Token)
    (r : Struct) (c : Conn) (j : Nat) (ht : (c.tables tgt).isSome = true)
    (hj : j < (decodedRows elementName cols toks none r).1.length / 5000)
    (hfault : c.fault (c.log.length + j) = true)
    (hfirst : ∀ i, i < j → c.fault (c.log.length + i) = false) :
    ∃ (bs : List (List Record)) (c0 c1 : Conn),
      Flushed tgt c c0 bs ∧ bs.length = j ∧
        Parse.loop elementName tgt cols toks none r [] c
          = .ret (.pq (.insert tgt
              (((decodedRows elementName cols toks none r).1.drop (5000 * j)).take 5000))) c1 ∧
        c1.log = c0.log ++ [.insert tgt
              (((decodedRows elementName cols toks none r).1.drop (5000 * j)).take 5000)] ∧
        c1.tables = c0.tables ∧ c1.fault = c0.fault := by
  obtain ⟨h1, h2⟩ := loop_spec elementName tgt cols toks none r [] c (by simp)
  cases hx : Parse.loop elementName tgt cols toks none r [] c with
  | brk a c1 =>
    exfalso
    obtain ⟨bs, g1, _, g3, g4⟩ := h1 a c1 hx
    have hc := flushed_count bs a _ g1.2.2.1 (by simpa using g3) g4
    have := g1.2.2.2.2.2.2 j (by omega)
    rw [this] at hfault
    simp at hfault
  | ret err c1 =>
    obtain ⟨bs, g | g⟩ := h2 err c1 hx
    · exfalso
      obtain ⟨g1, _, args1, g3, g4⟩ := g
      have hc := flushed_count bs args1 _ g1.2.2.1 (by simpa using g3) g4
      have := g1.2.2.2.2.2.2 j (by omega)
      rw [this] at hfault
      simp at hfault
    · obtain ⟨c0, b, g1, g2, g3, g4, g5, g6, g7, tl, g8⟩ := g
      rw [List.nil_append] at g8
      have hl := flatten_length 5000 bs g1.2.2.1
      have hbj : bs.length = j := by
        rcases Nat.lt_trichotomy bs.length j with h | h | h
        · exfalso
          rcases g7 with g7 | g7
          · rw [Flushed_log_length tgt c c0 bs g1, hfirst bs.length h] at g7
            simp at g7
          · rw [g7] at ht
            simp at ht
        · exact h
        · exfalso
          have := g1.2.2.2.2.2.2 j h
          rw [this] at hfault
          simp at hfault
      have hb : ((decodedRows elementName cols toks none r).1.drop (5000 * j)).take 5000 = b := by
        rw [← g8, ← hbj, ← hl, List.drop_left', List.take_left' g2]
        rfl
      rw [hb]
      exact ⟨bs, c0, c1, g1, hbj, by rw [g3], g5, g4, g6⟩

theorem Exec_faulty (c : Conn) (s : Stmt) (h : c.fault c.log.length = true) :
    c.Exec s = (some (.pq s), { c with log := c.log ++ [s] }) := by
  simp [Conn.Exec, h]

theorem finish_ok_clean (table tgt : String) (args : List Record) (c : Conn)
    (hf : ∀ n, c.fault n = false) (ht : (c.tables tgt).isSome = true)
    (htab : (c.tables table).isSome = true) :
    (Parse.finish table tgt args c).err = none := by
  obtain ⟨old, hold⟩ := Option.isSome_iff_exists.mp ht
  obtain ⟨told, htold⟩ := Option.isSome_iff_exists.mp htab
  unfold Parse.finish
  by_cases hpos : args.length > 0
  · rw [if_pos hpos]
    have hx : c.Exec (.insert tgt args)
        = (none, ⟨c.tables.put tgt (some (old ++ args)), c.log ++ [.insert tgt args],
            c.fault⟩) := by
      simp [Conn.Exec, hf, Tables.apply, hold]
    simp only [hx]
    by_cases htt : tgt = table
    · rw [if_neg (by simp [htt])]
    · rw [if_pos (show tgt ≠ table from htt)]
      have hy : (⟨c.tables.put tgt (some (old ++ args)), c.log ++ [.insert tgt args],
          c.fault⟩ : Conn).Exec (.dropRename table tgt)
          = (none, ⟨(((c.tables.put tgt (some (old ++ args))).put table none).put tgt
              none).put table (some (old ++ args)),
              c.log ++ [.insert tgt args] ++ [.dropRename table tgt], c.fault⟩) := by
        simp [Conn.Exec, hf, Tables.apply, Tables.put, htt, Ne.symm htt, htold]
      simp only [hy]
  · rw [if_neg hpos]

theorem load_ok_clean (table tgt elementName : String) (r : Struct) (toks : List Token)
    (c : Conn) (hf : ∀ n, c.fault n = false) (ht : (c.tables tgt).isSome = true)
    (htab : (c.tables table).isSome = true)
    (hdec : (decodedRows elementName (columnsOf r) toks none r).2 = none) :
    (Parse.load table tgt elementName r toks c).err = none := by
  obtain ⟨bs, args1, c1, ⟨_, g2, _, g4, g5, _⟩, _, _, k4, _⟩ :=
    loop_forward elementName tgt (columnsOf r) toks r c hf ht
  have hloop := k4 hdec
  simp only [columnsOf] at hloop
  have hload : Parse.load table tgt elementName r toks c
      = Parse.finish table tgt args1 c1 := by
    simp [Parse.load, hloop]
  rw [hload]
  apply finish_ok_clean
  · intro n; rw [g2]; exact hf n
  · rw [g4]
    cases hc : c.tables tgt with
    | none => rw [hc] at ht; simp at ht
    | some v => rfl
  · by_cases htt : table = tgt
    · rw [htt, g4]
      cases hc : c.tables tgt with
      | none => rw [hc] at ht; simp at ht
      | some v => rfl
    · rw [g5 table htt]; exact htab

theorem Parse_ok_clean (sys : Sys) (table elementName : String) (r : Struct)
    (old : List Record)
    (hopen : sys.openErr = none) (hstat : sys.statErr = none) (hsql : sys.sqlOpenErr = none)
    (hf : ∀ n, sys.fault n = false) (htable : sys.tables table = some old)
    (hshadow : sys.size > 20388921 → sys.tables ("temp_" ++ table) = none)
    (hdec : (decodedRows elementName (columnsOf r) sys.toks none r).2 = none) :
    (Parse sys table elementName r).err = none := by
  by_cases hsize : sys.size > 20388921
  · have hx : (⟨sys.tables, [], sys.fault⟩ : Conn).Exec (.createLike ("temp_" ++ table) table)
        = (none, ⟨sys.tables.put ("temp_" ++ table) (some []),
            [.createLike ("temp_" ++ table) table], sys.fault⟩) := by
      simp [Conn.Exec, hf, Tables.apply, htable, hshadow hsize]
    rw [Parse_large_ok sys table elementName r hopen hstat hsql hsize _ hx]
    exact load_ok_clean table ("temp_" ++ table) elementName r sys.toks _ hf
      (by simp [Tables.put]) (by simp [Tables.put, Ne.symm (temp_ne table), htable]) hdec
  · have hx : (⟨sys.tables, [], sys.fault⟩ : Conn).Exec (.truncate table)
        = (none, ⟨sys.tables.put table (some []), [.truncate table], sys.fault⟩) := by
      simp [Conn.Exec, hf, Tables.apply, htable]
    rw [Parse_small sys table elementName r hopen hstat hsql (by omega),
      body_same_ok table elementName r sys.toks _ _ hx]
    exact load_ok_clean table table elementName r sys.toks _ hf
      (by simp [Tables.put]) (by simp [Tables.put]) hdec

theorem large_load_err (sys : Sys) (table elementName : String) (r : Struct)
    (old : List Record)
    (hopen : sys.openErr = none) (hstat : sys.statErr = none) (hsql : sys.sqlOpenErr = none)
    (hsize : sys.size > 20388921) (hcreate : sys.fault 0 = false)
    (htable : sys.tables table = some old) (hshadow : sys.tables ("temp_" ++ table) = none) :
    (Parse sys table elementName r).err
      = (Parse.load table ("temp_" ++ table) elementName r sys.toks
          ⟨sys.tables.put ("temp_" ++ table) (some []),
            [.createLike ("temp_" ++ table) table], sys.fault⟩).err := by
  have hx : (⟨sys.tables, [], sys.fault⟩ : Conn).Exec (.createLike ("temp_" ++ table) table)
      = (none, ⟨sys.tables.put ("temp_" ++ table) (some []),
          [.createLike ("temp_" ++ table) table], sys.fault⟩) := by
    simp [Conn.Exec, hcreate, Tables.apply, htable, hshadow]
  rw [Parse_large_ok sys table elementName r hopen hstat hsql hsize _ hx]

theorem large_decode_forward (sys : Sys) (table elementName : String) (r : Struct)
    (old : List Record) (e : GoError)
    (hopen : sys.openErr = none) (hstat : sys.statErr = none) (hsql : sys.sqlOpenErr = none)
    (hsize : sys.size > 20388921) (hcreate : sys.fault 0 = false)
    (htable : sys.tables table = some old) (hshadow : sys.tables ("temp_" ++ table) = none)
    (hdec : (decodedRows elementName (columnsOf r) sys.toks none r).2 = some e)
    (hins : ∀ i, i < (decodedRows elementName (columnsOf r) sys.toks none r).1.length / 5000 →
      sys.fault (i + 1) = false) :
    (Parse sys table elementName r).err = some e := by
  rw [large_load_err sys table elementName r old hopen hstat hsql hsize hcreate htable hshadow]
  obtain ⟨bs, args1, c1, _, _, _, _, k5⟩ :=
    loop_run_clean elementName ("temp_" ++ table) (columnsOf r) sys.toks r
      ⟨sys.tables.put ("temp_" ++ table) (some []), [.createLike ("temp_" ++ table) table],
        sys.fault⟩ (by simp [Tables.put])
      (fun i hi => by
        have := hins i hi
        simpa [Nat.add_comm] using this)
  have hloop := k5 e hdec
  simp only [columnsOf] at hloop
  simp [Parse.load, hloop]

theorem large_insert_forward (sys : Sys) (table elementName : String) (r : Struct)
    (old : List Record) (j : Nat)
    (hopen : sys.openErr = none) (hstat : sys.statErr = none) (hsql : sys.sqlOpenErr = none)
    (hsize : sys.size > 20388921) (hcreate : sys.fault 0 = false)
    (htable : sys.tables table = some old) (hshadow : sys.tables ("temp_" ++ table) = none)
    (hj : j < (decodedRows elementName (columnsOf r) sys.toks none r).1.length / 5000 ∨
      ((decodedRows elementName (columnsOf r) sys.toks none r).2 = none ∧
        5000 * j < (decodedRows elementName (columnsOf r) sys.toks none r).1.length))
    (hfault : sys.fault (j + 1) = true) (hfirst : ∀ i, i < j → sys.fault (i + 1) = false) :
    (Parse sys table elementName r).err
      = some (.pq (.insert ("temp_" ++ table)
          (((decodedRows elementName (columnsOf r) sys.toks none r).1.drop (5000 * j)).take
            5000))) := by
  rw [large_load_err sys table elementName r old hopen hstat hsql hsize hcreate htable hshadow]
  by_cases hfull : j < (decodedRows elementName (columnsOf r) sys.toks none r).1.length / 5000
  · obtain ⟨bs, c0, c1, _, _, hloop, _⟩ :=
      loop_run_fault elementName ("temp_" ++ table) (columnsOf r) sys.toks r
        ⟨sys.tables.put ("temp_" ++ table) (some []), [.createLike ("temp_" ++ table) table],
          sys.fault⟩ j (by simp [Tables.put]) hfull
        (by simpa [Nat.add_comm] using hfault)
        (fun i hi => by
          have := hfirst i hi
          simpa [Nat.add_comm] using this)
    simp only [columnsOf] at hloop
    simp [Parse.load, hloop, columnsOf]
  · have hlast : (decodedRows elementName (columnsOf r) sys.toks none r).2 = none ∧
        5000 * j < (decodedRows elementName (columnsOf r) sys.toks none r).1.length := by
      rcases hj with hj | hj
      · exact absurd hj hfull
      · exact hj
    obtain ⟨bs, args1, c1, g, k2, k3, k4, _⟩ :=
      loop_run_clean elementName ("temp_" ++ table) (columnsOf r) sys.toks r
        ⟨sys.tables.put ("temp_" ++ table) (some []), [.createLike ("temp_" ++ table) table],
          sys.fault⟩ (by simp [Tables.put])
        (fun i hi => by
          have := hfirst i (by omega)
          simpa [Nat.add_comm] using this)
    have hcount := flushed_count bs args1 _ g.2.2.1 k2 k3
    have hl := flatten_length 5000 bs g.2.2.1
    have hlen := congrArg List.length k2
    rw [List.length_append, hl] at hlen
    have hjm : j = bs.length := by omega
    have hpos : args1.length > 0 := by omega
    have hb : ((decodedRows elementName (columnsOf r) sys.toks none r).1.drop (5000 * j)).take
        5000 = args1 := by
      rw [← k2, hjm, ← hl, List.drop_left', List.take_of_length_le (by omega)]
      rfl
    have hloop := k4 hlast.1
    simp only [columnsOf] at hloop
    have hload : Parse.load table ("temp_" ++ table) elementName r sys.toks
        ⟨sys.tables.put ("temp_" ++ table) (some []), [.createLike ("temp_" ++ table) table],
          sys.fault⟩ = Parse.finish table ("temp_" ++ table) args1 c1 := by
      simp [Parse.load, hloop]
    have hflt : c1.fault c1.log.length = true := by
      rw [g.2.1, Flushed_log_length _ _ _ _ g]
      simp only [List.length_singleton]
      rw [← hjm, Nat.add_comm]
      exact hfault
    rw [hload, hb]
    unfold Parse.finish
    rw [if_pos hpos, Exec_faulty c1 _ hflt]

/-- C5 as stated fails.  A stream of one element with the configured name whose `ACTSTATID`
is not a number: the loop of `Parse` stops with the conversion error and no row is produced,
where the claim says one.  And a stream of two elements with the configured name, the second
inside the first: `Parse` returns nil and produces one row, not two, because the content of an
element is consumed while it is decoded.  And two well-formed elements loaded into a store
that lacks the target table: the `TRUNCATE` is rejected and no row is produced. -/
theorem Parse_rows_fewer_than_elements :
    (targetAttrs "ActualStatus" (stream [badElem])).length = 1 ∧
      (Parse (fileOn 200 (stream [badElem]) .EOF (oneTable "actual_status" [oldRow]))
        "actual_status" "ActualStatus" (new ActualStatus)).err = some (.numError "x") ∧
      insertsOf (Parse (fileOn 200 (stream [badElem]) .EOF (oneTable "actual_status" [oldRow]))
        "actual_status" "ActualStatus" (new ActualStatus)).conn.log = [] ∧
      (decodedRows "ActualStatus" (columnsOf (new ActualStatus)) (stream [badElem]) none
        (new ActualStatus)).1 = [] ∧
      (targetAttrs "ActualStatus" nestedDoc).length = 2 ∧
      (Parse (fileOn 200 nestedDoc .EOF (oneTable "actual_status" [oldRow]))
        "actual_status" "ActualStatus" (new ActualStatus)).err = none ∧
      insertsOf (Parse (fileOn 200 nestedDoc .EOF (oneTable "actual_status" [oldRow]))
        "actual_status" "ActualStatus" (new ActualStatus)).conn.log
        = [("actual_status", [[("actstatid", .int 1), ("name", .string "")]])] ∧
      (targetAttrs "ActualStatus" statusDoc).length = 2 ∧
      (Parse (fileOn 200 statusDoc .EOF (fun _ => none))
        "actual_status" "ActualStatus" (new ActualStatus)).err
        = some (.pq (.truncate "actual_status")) ∧
      insertsOf (Parse (fileOn 200 statusDoc .EOF (fun _ => none))
        "actual_status" "ActualStatus" (new ActualStatus)).conn.log = [] := by
  refine ⟨?_, ?_, ?_, ?_, ?_, ?_, ?_, ?_, ?_, ?_⟩ <;> decide

/-- C5 as amended.  A token stream in which every element with the configured name is closed
and none lies inside another, in any interleaving with other elements, text and a root, and in
which the attributes of every such element convert to the types of their fields, loaded into a
store that rejects no statement: `Parse` returns nil, and the rows it inserted, batches
concatenated, are one row per element with the configured name, in document order (row `i` is
the struct as it stands after the first `i` such elements have been decoded into it), each with
an entry for the lower-cased name of every field of the record type. -/
theorem Parse_unnested_rows (sys : Sys) (table elementName : String) (r : Struct)
    (old : List Record)
    (hopen : sys.openErr = none) (hstat : sys.statErr = none) (hsql : sys.sqlOpenErr = none)
    (hf : ∀ n, sys.fault n = false) (htable : sys.tables table = some old)
    (hshadow : sys.size > 20388921 → sys.tables ("temp_" ++ table) = none)
    (hflat : Unnested elementName sys.toks none = true)
    (hdec : firstError r (targetAttrs elementName sys.toks) = none) :
    (Parse sys table elementName r).err = none ∧
      ((insertsOf (Parse sys table elementName r).conn.log).map Prod.snd).flatten
        = (snapshots r (targetAttrs elementName sys.toks)).map (makeArgument (columnsOf r)) ∧
      ((insertsOf (Parse sys table elementName r).conn.log).map Prod.snd).flatten.length
        = (targetAttrs elementName sys.toks).length ∧
      (∀ p ∈ insertsOf (Parse sys table elementName r).conn.log,
        p.1 = writeTarget sys.size table) ∧
      (∀ row ∈ ((insertsOf (Parse sys table elementName r).conn.log).map Prod.snd).flatten,
        ∀ fv ∈ r, (row.get? (ToLower fv.1.name)).isSome = true) := by
  have hrows := decodedRows_unnested elementName (columnsOf r) sys.toks none r hflat
  simp only [List.nil_append] at hrows
  have herr : (Parse sys table elementName r).err = none :=
    Parse_ok_clean sys table elementName r old hopen hstat hsql hf htable hshadow
      (by rw [hrows]; exact hdec)
  obtain ⟨h1, _⟩ := Parse_inserts sys table elementName r herr
  rw [hrows] at h1
  simp only at h1
  have hflat2 : ((insertsOf (Parse sys table elementName r).conn.log).map Prod.snd).flatten
      = (snapshots r (targetAttrs elementName sys.toks)).map (makeArgument (columnsOf r)) := by
    rw [h1, List.map_map]
    have hid : (Prod.snd ∘ fun b : List Record => (writeTarget sys.size table, b)) = id := rfl
    rw [hid, List.map_id, chunksOf_flatten 5000 (by omega)]
  refine ⟨herr, hflat2, ?_, ?_, ?_⟩
  · rw [hflat2, List.length_map, snapshots_length _ r hdec]
  · intro p hp
    rw [h1] at hp
    obtain ⟨b, _, rfl⟩ := List.mem_map.mp hp
    rfl
  · intro row hrow fv hfv
    rw [hflat2] at hrow
    obtain ⟨s, hs, rfl⟩ := List.mem_map.mp hrow
    exact makeArgument_covers r s (snapshots_fields _ r s hs) fv hfv

theorem Parse_unnested_rows_witness :
    Unnested "ActualStatus" (fileOn 200 statusDoc .EOF (oneTable "actual_status" [oldRow])).toks
        none = true ∧
      firstError (new ActualStatus) (targetAttrs "ActualStatus"
        (fileOn 200 statusDoc .EOF (oneTable "actual_status" [oldRow])).toks) = none ∧
      (Parse (fileOn 200 statusDoc .EOF (oneTable "actual_status" [oldRow]))
        "actual_status" "ActualStatus" (new ActualStatus)).err = none ∧
      ((insertsOf (Parse (fileOn 200 statusDoc .EOF (oneTable "actual_status" [oldRow]))
        "actual_status" "ActualStatus" (new ActualStatus)).conn.log).map Prod.snd).flatten.length
        = (targetAttrs "ActualStatus"
            (fileOn 200 statusDoc .EOF (oneTable "actual_status" [oldRow])).toks).length :=
  ⟨by decide, by decide,
    (Parse_unnested_rows (fileOn 200 statusDoc .EOF (oneTable "actual_status" [oldRow]))
      "actual_status" "ActualStatus" (new ActualStatus) [oldRow] rfl rfl rfl (fun _ => rfl)
      (by decide) (fun _ => by decide) (by decide) (by decide)).1,
    (Parse_unnested_rows (fileOn 200 statusDoc .EOF (oneTable "actual_status" [oldRow]))
      "actual_status" "ActualStatus" (new ActualStatus) [oldRow] rfl rfl rfl (fun _ => rfl)
      (by decide) (fun _ => by decide) (by decide) (by decide)).2.2.1⟩

/-- C7.  A large file whose shadow table has been created (the target table exists, the
shadow does not, the `CREATE` is not rejected).  The statement sent after `n` earlier ones is
rejected when `sys.fault n` holds, so batch `j` is the statement after the `CREATE` and `j`
inserts.  If decoding fails with `e` and no insert before it is rejected, `Parse` returns `e`.
If the insert of batch `j` is the first to be rejected (a full batch of the loop, or the last
batch of a stream decoded to its end), `Parse` returns the error of that insert.  Either way
none of the statements sent modifies the target table (they create, fill and drop
`temp_<table>` only), the last of them is the `DROP` of the shadow table `temp_<table>`, and
the target table holds what it held before. -/
theorem Parse_large_failure (sys : Sys) (table elementName : String) (r : Struct)
    (old : List Record)
    (hopen : sys.openErr = none) (hstat : sys.statErr = none) (hsql : sys.sqlOpenErr = none)
    (hsize : sys.size > 20388921) (hcreate : sys.fault 0 = false)
    (htable : sys.tables table = some old) (hshadow : sys.tables ("temp_" ++ table) = none) :
    (∀ e, (decodedRows elementName (columnsOf r) sys.toks none r).2 = some e →
      (∀ i, i < (decodedRows elementName (columnsOf r) sys.toks none r).1.length / 5000 →
        sys.fault (i + 1) = false) →
      (Parse sys table elementName r).err = some e ∧
        (∀ s ∈ (Parse sys table elementName r).conn.log, s.modifies table = false) ∧
        (Parse sys table elementName r).conn.log.getLast? = some (.drop ("temp_" ++ table)) ∧
        (Parse sys table elementName r).conn.tables table = some old) ∧
    (∀ j, (j < (decodedRows elementName (columnsOf r) sys.toks none r).1.length / 5000 ∨
        ((decodedRows elementName (columnsOf r) sys.toks none r).2 = none ∧
          5000 * j < (decodedRows elementName (columnsOf r) sys.toks none r).1.length)) →
      sys.fault (j + 1) = true → (∀ i, i < j → sys.fault (i + 1) = false) →
      (Parse sys table elementName r).err
          = some (.pq (.insert ("temp_" ++ table)
              (((decodedRows elementName (columnsOf r) sys.toks none r).1.drop (5000 * j)).take
                5000))) ∧
        (∀ s ∈ (Parse sys table elementName r).conn.log, s.modifies table = false) ∧
        (Parse sys table elementName r).conn.log.getLast? = some (.drop ("temp_" ++ table)) ∧
        (Parse sys table elementName r).conn.tables table = some old) := by
  refine ⟨fun e hdec hins => ?_, fun j hj hfault hfirst => ?_⟩
  · have herr := large_decode_forward sys table elementName r old e hopen hstat hsql hsize
      hcreate htable hshadow hdec hins
    obtain ⟨h1, h2, h3⟩ := large_failure_trace sys table elementName r e hopen hstat hsql hsize
      herr (Or.inl (decodedRows_isDecode _ _ _ e none r hdec))
    exact ⟨herr, h1, h2, by rw [h3, htable]⟩
  · have herr := large_insert_forward sys table elementName r old j hopen hstat hsql hsize
      hcreate htable hshadow hj hfault hfirst
    obtain ⟨h1, h2, h3⟩ := large_failure_trace sys table elementName r _ hopen hstat hsql hsize
      herr (Or.inr rfl)
    exact ⟨herr, h1, h2, by rw [h3, htable]⟩

theorem Parse_large_failure_witness :
    (decodedRows "ActualStatus" (columnsOf (new ActualStatus))
        (fileOn 20388922 (stream [badElem]) .EOF (oneTable "actual_status" [oldRow])).toks none
        (new ActualStatus)).2 = some (.numError "x") ∧
      (Parse (fileOn 20388922 (stream [badElem]) .EOF (oneTable "actual_status" [oldRow]))
        "actual_status" "ActualStatus" (new ActualStatus)).err = some (.numError "x") ∧
      (faultAt 1 20388922 statusDoc (oneTable "actual_status" [oldRow])).fault (0 + 1) = true ∧
      (Parse (faultAt 1 20388922 statusDoc (oneTable "actual_status" [oldRow]))
        "actual_status" "ActualStatus" (new ActualStatus)).conn.log.getLast?
        = some (.drop ("temp_" ++ "actual_status")) :=
  ⟨by decide,
    ((Parse_large_failure (fileOn 20388922 (stream [badElem]) .EOF
      (oneTable "actual_status" [oldRow])) "actual_status" "ActualStatus" (new ActualStatus)
      [oldRow] rfl rfl rfl (by decide) rfl (by decide) (by decide)).1 (.numError "x")
      (by decide) (fun i hi => rfl)).1,
    by decide,
    ((Parse_large_failure (faultAt 1 20388922 statusDoc (oneTable "actual_status" [oldRow]))
      "actual_status" "ActualStatus" (new ActualStatus) [oldRow] rfl rfl rfl (by decide)
      (by decide) (by decide) (by decide)).2 0 (Or.inr (by decide)) (by decide)
      (fun i hi => absurd hi (Nat.not_lt_zero i))).2.2.1⟩

end FIASParse
